import Mathlib

/-!
Shallow embedding of `uer/trainer.py` (UER-py training driver).

Modelling conventions:
* Python floats are modelled by `ℚ` (the claims under verification concern
  exact arithmetic relations between reported quantities, not IEEE rounding).
* The model, optimizer, scheduler and data loader are external collaborators;
  their outputs visible to the trainer (the loss-info tuple returned by
  `model(src, tgt, seg)` and the shapes of the drawn batch) are supplied by a
  batch oracle `batches : Nat → Batch`, one entry per loop step.
* Wall-clock time (`time.time()`) is an oracle `clock : Nat → ℚ`; the k-th
  call of `time.time()` after the initial one returns `clock k`.
* Side effects (backward, `optimizer.step()`, `scheduler.step()`,
  `model.zero_grad()`, the printed report line, `save_model`) are recorded as
  an event trace.  Device moves (`.cuda`) are value-preserving and elided.
* The `while True` loop of each trainer is modelled with explicit fuel; the
  loop body is translated verbatim from the source, with the break condition
  `steps == total_steps + 1` checked first, exactly as in the source.
-/

namespace UER


/-- The fields of the `args` configuration object that the trainer reads.
`amp` models the attribute `args.amp` that `worker` attaches when fp16 is
requested (absent = `none`). -/
structure Args where
  total_steps : Nat
  accumulation_steps : Nat
  report_steps : Nat
  save_checkpoint_steps : Nat
  batch_size : Nat
  world_size : Nat
  dist_train : Bool
  single_gpu : Bool
  fp16 : Bool
  target : String
  output_model_path : String
  amp : Option Unit := none
deriving DecidableEq

/-- One loop step's external inputs: the drawn batch's tensor shape
(`size0` = `src.size(0)`, `size1` = `src.size(1)`) and the scalar components
of the loss-info tuple returned by the model for that batch.  For the
two-sub-loss families (`bert`, `albert`, `bilm`) the sub-losses are
(`lossA`, `lossB`) (mlm/forward first); single-loss families use `lossA` and
ignore `lossB`/`correctB`; `cls` additionally ignores `denominator`. -/
structure Batch where
  size0 : Nat
  size1 : Nat
  lossA : ℚ
  lossB : ℚ
  correctA : ℚ
  correctB : ℚ
  denominator : ℚ
deriving DecidableEq

/-- The numbers interpolated into the printed report line. -/
structure Report where
  steps : Nat
  total_steps : Nat
  tokensPerSec : ℚ
  loss : ℚ
  subLosses : List ℚ
  accs : List ℚ
deriving DecidableEq

/-- Observable side effects of one loop step. -/
inductive Event where
  | backward (loss : ℚ)
  | optimizerStep
  | schedulerStep
  | zeroGrad
  | report (r : Report)
  | saveModel (path : String)
deriving DecidableEq

/-- The local mutable variables shared by the seven trainer loops.  Field
names follow `train_bert`; per family: `total_loss_a`/`total_loss_b` are
`total_loss_mlm`/`total_loss_nsp` (bert), `total_loss_mlm`/`total_loss_sop`
(albert), `total_loss_forward`/`total_loss_backward` (bilm); similarly for
the correct counts.  `timeIdx` indexes the next `time.time()` call in the
clock oracle; `start_time` holds the last sampled start time. -/
structure TrainState where
  start_time : ℚ
  timeIdx : Nat
  total_loss : ℚ
  total_loss_a : ℚ
  total_loss_b : ℚ
  total_correct_a : ℚ
  total_correct_b : ℚ
  total_denominator : ℚ
  total_instances : ℚ
  done_tokens : Nat
deriving DecidableEq

/-- The condition `not args.dist_train or (args.dist_train and rank == 0)`
guarding every report and checkpoint in the source. -/
def ownsMetrics (args : Args) (rank : Option Nat) : Bool :=
  !args.dist_train || (args.dist_train && rank == some 0)

/-- The seven trainer variants of `str2trainer` (the source maps the key
"t5" to `train_mt` as well). -/
inductive Variant where
  | bert | lm | mlm | bilm | albert | mt | cls
deriving DecidableEq

/-- The dictionary `str2trainer` from the source. -/
def str2trainer (s : String) : Option Variant :=
  if s = "bert" then some .bert
  else if s = "lm" then some .lm
  else if s = "mlm" then some .mlm
  else if s = "bilm" then some .bilm
  else if s = "albert" then some .albert
  else if s = "mt" then some .mt
  else if s = "t5" then some .mt
  else if s = "cls" then some .cls
  else none

/-- One iteration of the loop body of the trainer selected by `v`, translated
from the corresponding `train_*` function.  Returns the events of the step
and the updated local variables. -/
def trainerStep (v : Variant) (args : Args) (rank : Option Nat)
    (clock : Nat → ℚ) (b : Batch) (steps : Nat) (st : TrainState) :
    List Event × TrainState :=
  match v with
  | .bert =>
    -- train_bert: loss = loss_mlm + loss_nsp; done_tokens counts src.size(0)*src.size(1)
    let loss := b.lossA + b.lossB
    let st1 :=
      { st with
        total_loss := st.total_loss + loss
        total_loss_a := st.total_loss_a + b.lossA
        total_loss_b := st.total_loss_b + b.lossB
        total_correct_a := st.total_correct_a + b.correctA
        total_correct_b := st.total_correct_b + b.correctB
        total_denominator := st.total_denominator + b.denominator
        total_instances := st.total_instances + (b.size0 : ℚ)
        done_tokens := st.done_tokens + b.size0 * b.size1 }
    let evB : List Event := [Event.backward (loss / (args.accumulation_steps : ℚ))]
    let evO : List Event :=
      if steps % args.accumulation_steps == 0 then
        [Event.optimizerStep, Event.schedulerStep, Event.zeroGrad]
      else []
    let rp :=
      if steps % args.report_steps == 0 && ownsMetrics args rank then
        let elapsed := clock st1.timeIdx - st1.start_time
        let done_tokens :=
          if args.dist_train then st1.done_tokens * args.world_size
          else st1.done_tokens
        let rep : Report :=
          { steps := steps
            total_steps := args.total_steps
            tokensPerSec := (done_tokens : ℚ) / elapsed
            loss := st1.total_loss / (args.report_steps : ℚ)
            subLosses := [st1.total_loss_a / (args.report_steps : ℚ),
                          st1.total_loss_b / (args.report_steps : ℚ)]
            accs := [st1.total_correct_a / st1.total_denominator,
                     st1.total_correct_b / st1.total_instances] }
        ([Event.report rep],
         { st1 with
           done_tokens := 0
           total_loss := 0
           total_loss_a := 0
           total_loss_b := 0
           total_correct_a := 0
           total_denominator := 0
           total_correct_b := 0
           total_instances := 0
           start_time := clock (st1.timeIdx + 1)
           timeIdx := st1.timeIdx + 2 })
      else (([] : List Event), st1)
    let evS : List Event :=
      if steps % args.save_checkpoint_steps == 0 && ownsMetrics args rank then
        [Event.saveModel (args.output_model_path ++ "-" ++ Nat.repr steps)]
      else []
    (evB ++ evO ++ rp.1 ++ evS, rp.2)
  | .mlm =>
    -- train_mlm: single loss; report estimates tokens from args.batch_size and the current batch
    let st1 :=
      { st with
        total_loss := st.total_loss + b.lossA
        total_correct_a := st.total_correct_a + b.correctA
        total_denominator := st.total_denominator + b.denominator }
    let evB : List Event := [Event.backward (b.lossA / (args.accumulation_steps : ℚ))]
    let evO : List Event :=
      if steps % args.accumulation_steps == 0 then
        [Event.optimizerStep, Event.schedulerStep, Event.zeroGrad]
      else []
    let rp :=
      if steps % args.report_steps == 0 && ownsMetrics args rank then
        let elapsed := clock st1.timeIdx - st1.start_time
        let done_tokens :=
          if args.dist_train then
            args.batch_size * b.size1 * args.report_steps * args.world_size
          else args.batch_size * b.size1 * args.report_steps
        let rep : Report :=
          { steps := steps
            total_steps := args.total_steps
            tokensPerSec := (done_tokens : ℚ) / elapsed
            loss := st1.total_loss / (args.report_steps : ℚ)
            subLosses := []
            accs := [st1.total_correct_a / st1.total_denominator] }
        ([Event.report rep],
         { st1 with
           total_loss := 0
           total_correct_a := 0
           total_denominator := 0
           start_time := clock (st1.timeIdx + 1)
           timeIdx := st1.timeIdx + 2 })
      else (([] : List Event), st1)
    let evS : List Event :=
      if steps % args.save_checkpoint_steps == 0 && ownsMetrics args rank then
        [Event.saveModel (args.output_model_path ++ "-" ++ Nat.repr steps)]
      else []
    (evB ++ evO ++ rp.1 ++ evS, rp.2)
  | .albert =>
    -- train_albert: loss = loss_mlm + loss_sop (same body as train_bert)
    let loss := b.lossA + b.lossB
    let st1 :=
      { st with
        total_loss := st.total_loss + loss
        total_loss_a := st.total_loss_a + b.lossA
        total_loss_b := st.total_loss_b + b.lossB
        total_correct_a := st.total_correct_a + b.correctA
        total_correct_b := st.total_correct_b + b.correctB
        total_denominator := st.total_denominator + b.denominator
        total_instances := st.total_instances + (b.size0 : ℚ)
        done_tokens := st.done_tokens + b.size0 * b.size1 }
    let evB : List Event := [Event.backward (loss / (args.accumulation_steps : ℚ))]
    let evO : List Event :=
      if steps % args.accumulation_steps == 0 then
        [Event.optimizerStep, Event.schedulerStep, Event.zeroGrad]
      else []
    let rp :=
      if steps % args.report_steps == 0 && ownsMetrics args rank then
        let elapsed := clock st1.timeIdx - st1.start_time
        let done_tokens :=
          if args.dist_train then st1.done_tokens * args.world_size
          else st1.done_tokens
        let rep : Report :=
          { steps := steps
            total_steps := args.total_steps
            tokensPerSec := (done_tokens : ℚ) / elapsed
            loss := st1.total_loss / (args.report_steps : ℚ)
            subLosses := [st1.total_loss_a / (args.report_steps : ℚ),
                          st1.total_loss_b / (args.report_steps : ℚ)]
            accs := [st1.total_correct_a / st1.total_denominator,
                     st1.total_correct_b / st1.total_instances] }
        ([Event.report rep],
         { st1 with
           done_tokens := 0
           total_loss := 0
           total_loss_a := 0
           total_loss_b := 0
           total_correct_a := 0
           total_denominator := 0
           total_correct_b := 0
           total_instances := 0
           start_time := clock (st1.timeIdx + 1)
           timeIdx := st1.timeIdx + 2 })
      else (([] : List Event), st1)
    let evS : List Event :=
      if steps % args.save_checkpoint_steps == 0 && ownsMetrics args rank then
        [Event.saveModel (args.output_model_path ++ "-" ++ Nat.repr steps)]
      else []
    (evB ++ evO ++ rp.1 ++ evS, rp.2)
  | .lm =>
    -- train_lm (loop body identical to train_mlm)
    let st1 :=
      { st with
        total_loss := st.total_loss + b.lossA
        total_correct_a := st.total_correct_a + b.correctA
        total_denominator := st.total_denominator + b.denominator }
    let evB : List Event := [Event.backward (b.lossA / (args.accumulation_steps : ℚ))]
    let evO : List Event :=
      if steps % args.accumulation_steps == 0 then
        [Event.optimizerStep, Event.schedulerStep, Event.zeroGrad]
      else []
    let rp :=
      if steps % args.report_steps == 0 && ownsMetrics args rank then
        let elapsed := clock st1.timeIdx - st1.start_time
        let done_tokens :=
          if args.dist_train then
            args.batch_size * b.size1 * args.report_steps * args.world_size
          else args.batch_size * b.size1 * args.report_steps
        let rep : Report :=
          { steps := steps
            total_steps := args.total_steps
            tokensPerSec := (done_tokens : ℚ) / elapsed
            loss := st1.total_loss / (args.report_steps : ℚ)
            subLosses := []
            accs := [st1.total_correct_a / st1.total_denominator] }
        ([Event.report rep],
         { st1 with
           total_loss := 0
           total_correct_a := 0
           total_denominator := 0
           start_time := clock (st1.timeIdx + 1)
           timeIdx := st1.timeIdx + 2 })
      else (([] : List Event), st1)
    let evS : List Event :=
      if steps % args.save_checkpoint_steps == 0 && ownsMetrics args rank then
        [Event.saveModel (args.output_model_path ++ "-" ++ Nat.repr steps)]
      else []
    (evB ++ evO ++ rp.1 ++ evS, rp.2)
  | .bilm =>
    -- train_bilm: loss = loss_forward + loss_backward; the report prints the current batch's sub-losses, and both accuracies share total_denominator
    let loss := b.lossA + b.lossB
    let st1 :=
      { st with
        total_loss := st.total_loss + loss
        total_loss_a := st.total_loss_a + b.lossA
        total_loss_b := st.total_loss_b + b.lossB
        total_correct_a := st.total_correct_a + b.correctA
        total_correct_b := st.total_correct_b + b.correctB
        total_denominator := st.total_denominator + b.denominator }
    let evB : List Event := [Event.backward (loss / (args.accumulation_steps : ℚ))]
    let evO : List Event :=
      if steps % args.accumulation_steps == 0 then
        [Event.optimizerStep, Event.schedulerStep, Event.zeroGrad]
      else []
    let rp :=
      if steps % args.report_steps == 0 && ownsMetrics args rank then
        let elapsed := clock st1.timeIdx - st1.start_time
        let done_tokens :=
          if args.dist_train then
            args.batch_size * b.size1 * args.report_steps * args.world_size
          else args.batch_size * b.size1 * args.report_steps
        let rep : Report :=
          { steps := steps
            total_steps := args.total_steps
            tokensPerSec := (done_tokens : ℚ) / elapsed
            loss := st1.total_loss / (args.report_steps : ℚ)
            subLosses := [b.lossA, b.lossB]
            accs := [st1.total_correct_a / st1.total_denominator,
                     st1.total_correct_b / st1.total_denominator] }
        ([Event.report rep],
         { st1 with
           total_loss := 0
           total_loss_a := 0
           total_loss_b := 0
           total_correct_a := 0
           total_correct_b := 0
           total_denominator := 0
           start_time := clock (st1.timeIdx + 1)
           timeIdx := st1.timeIdx + 2 })
      else (([] : List Event), st1)
    let evS : List Event :=
      if steps % args.save_checkpoint_steps == 0 && ownsMetrics args rank then
        [Event.saveModel (args.output_model_path ++ "-" ++ Nat.repr steps)]
      else []
    (evB ++ evO ++ rp.1 ++ evS, rp.2)
  | .cls =>
    -- train_cls: loss_info = (loss, correct); instances accumulate src.size(0)
    let st1 :=
      { st with
        total_loss := st.total_loss + b.lossA
        total_correct_a := st.total_correct_a + b.correctA
        total_instances := st.total_instances + (b.size0 : ℚ) }
    let evB : List Event := [Event.backward (b.lossA / (args.accumulation_steps : ℚ))]
    let evO : List Event :=
      if steps % args.accumulation_steps == 0 then
        [Event.optimizerStep, Event.schedulerStep, Event.zeroGrad]
      else []
    let rp :=
      if steps % args.report_steps == 0 && ownsMetrics args rank then
        let elapsed := clock st1.timeIdx - st1.start_time
        let done_tokens :=
          if args.dist_train then
            args.batch_size * b.size1 * args.report_steps * args.world_size
          else args.batch_size * b.size1 * args.report_steps
        let rep : Report :=
          { steps := steps
            total_steps := args.total_steps
            tokensPerSec := (done_tokens : ℚ) / elapsed
            loss := st1.total_loss / (args.report_steps : ℚ)
            subLosses := []
            accs := [st1.total_correct_a / st1.total_instances] }
        ([Event.report rep],
         { st1 with
           total_loss := 0
           total_correct_a := 0
           total_instances := 0
           start_time := clock (st1.timeIdx + 1)
           timeIdx := st1.timeIdx + 2 })
      else (([] : List Event), st1)
    let evS : List Event :=
      if steps % args.save_checkpoint_steps == 0 && ownsMetrics args rank then
        [Event.saveModel (args.output_model_path ++ "-" ++ Nat.repr steps)]
      else []
    (evB ++ evO ++ rp.1 ++ evS, rp.2)
  | .mt =>
    -- train_mt (loss-info handling identical to train_mlm)
    let st1 :=
      { st with
        total_loss := st.total_loss + b.lossA
        total_correct_a := st.total_correct_a + b.correctA
        total_denominator := st.total_denominator + b.denominator }
    let evB : List Event := [Event.backward (b.lossA / (args.accumulation_steps : ℚ))]
    let evO : List Event :=
      if steps % args.accumulation_steps == 0 then
        [Event.optimizerStep, Event.schedulerStep, Event.zeroGrad]
      else []
    let rp :=
      if steps % args.report_steps == 0 && ownsMetrics args rank then
        let elapsed := clock st1.timeIdx - st1.start_time
        let done_tokens :=
          if args.dist_train then
            args.batch_size * b.size1 * args.report_steps * args.world_size
          else args.batch_size * b.size1 * args.report_steps
        let rep : Report :=
          { steps := steps
            total_steps := args.total_steps
            tokensPerSec := (done_tokens : ℚ) / elapsed
            loss := st1.total_loss / (args.report_steps : ℚ)
            subLosses := []
            accs := [st1.total_correct_a / st1.total_denominator] }
        ([Event.report rep],
         { st1 with
           total_loss := 0
           total_correct_a := 0
           total_denominator := 0
           start_time := clock (st1.timeIdx + 1)
           timeIdx := st1.timeIdx + 2 })
      else (([] : List Event), st1)
    let evS : List Event :=
      if steps % args.save_checkpoint_steps == 0 && ownsMetrics args rank then
        [Event.saveModel (args.output_model_path ++ "-" ++ Nat.repr steps)]
      else []
    (evB ++ evO ++ rp.1 ++ evS, rp.2)

/-- The `while True` loop shared verbatim by the seven trainers: break when
`steps == total_steps + 1`, else run the body and increment `steps`.  `fuel`
bounds the number of iterations the model will unfold; `none` means the fuel
was exhausted before the break fired. -/
def trainLoop (total_steps : Nat) (stepFn : Nat → TrainState → List Event × TrainState)
    (steps : Nat) (st : TrainState) (fuel : Nat) :
    Option (List (Nat × List Event)) :=
  match fuel with
  | 0 => none
  | fuel + 1 =>
    if steps = total_steps + 1 then some []
    else
      (trainLoop total_steps stepFn (steps + 1) (stepFn steps st).2 fuel).map
        ((steps, (stepFn steps st).1) :: ·)

/-- Local variables at loop entry: all accumulators zero,
`start_time = time.time()` (the clock's sample 0). -/
def initState (clock : Nat → ℚ) : TrainState :=
  { start_time := clock 0
    timeIdx := 1
    total_loss := 0
    total_loss_a := 0
    total_loss_b := 0
    total_correct_a := 0
    total_correct_b := 0
    total_denominator := 0
    total_instances := 0
    done_tokens := 0 }

/-- A full trainer run: the loop started at `steps = 1` on the fresh state. -/
def train (v : Variant) (args : Args) (rank : Option Nat) (clock : Nat → ℚ)
    (batches : Nat → Batch) (fuel : Nat) : Option (List (Nat × List Event)) :=
  trainLoop args.total_steps
    (fun s st => trainerStep v args rank clock (batches s) s st) 1
    (initState clock) fuel

/-- The `t_total` horizon passed to `WarmupLinearSchedule` in `worker`
(line 700 of the source): the configured total step count. -/
def schedulerTTotal (args : Args) : Nat :=
  args.total_steps

/-- The error message raised by `worker` when fp16 is requested but apex is
not importable. -/
def apexImportError : String :=
  "Please install apex from https://www.github.com/nvidia/apex to use fp16 training."

/-- The `worker` entry point: derives `(rank, gpu_id)`, builds the loader,
optimizer and scheduler (external, event-free constructions), performs the
fp16 apex import (raising `ImportError` when apex is unavailable, and
stashing the amp handle on `args` otherwise), then dispatches through
`str2trainer`.  Returns the configuration object as it stands at dispatch
time together with the trainer's trace; an unknown target raises `KeyError`
as the Python dictionary lookup would. -/
def worker (procId : Option Nat) (gpuRanks : List Nat) (args : Args)
    (apexAvailable : Bool) (clock : Nat → ℚ) (batches : Nat → Batch)
    (fuel : Nat) :
    Except String (Args × Option (List (Nat × List Event))) :=
  let rank : Option Nat :=
    if args.dist_train then some (gpuRanks.getD (procId.getD 0) 0)
    else none
  if args.fp16 && !apexAvailable then
    .error ("ImportError: " ++ apexImportError)
  else
    let args := if args.fp16 then { args with amp := some () } else args
    match str2trainer args.target with
    | none => .error ("KeyError: " ++ args.target)
    | some v => .ok (args, train v args rank clock batches fuel)




/-! ### Event classifiers and trace helpers -/

/-- Recognizes an `optimizer.step()` event. -/
def isOptimizerStep : Event → Bool
  | .optimizerStep => true
  | _ => false

/-- Recognizes a `scheduler.step()` event. -/
def isSchedulerStep : Event → Bool
  | .schedulerStep => true
  | _ => false

/-- Recognizes a `model.zero_grad()` event. -/
def isZeroGrad : Event → Bool
  | .zeroGrad => true
  | _ => false

/-- Extracts the report of a printed status line, if any. -/
def getReport : Event → Option Report
  | .report r => some r
  | _ => none

/-- Extracts the path of a `save_model` event, if any. -/
def getSavePath : Event → Option String
  | .saveModel p => some p
  | _ => none

/-- Extracts the loss value passed to `backward`, if any. -/
def getBackward : Event → Option ℚ
  | .backward q => some q
  | _ => none

/-- All checkpoint paths written during a run, in order. -/
def savedPaths (tr : List (Nat × List Event)) : List String :=
  tr.flatMap (fun p => p.2.filterMap getSavePath)

/-- Total number of events satisfying `p` over a whole trace. -/
def traceCount (p : Event → Bool) (tr : List (Nat × List Event)) : Nat :=
  (tr.map (fun q => q.2.countP p)).sum

/-- The state of the loop's local variables after executing steps
`steps0, steps0 + 1, …, steps0 + n - 1` from state `st`. -/
def orbit (f : Nat → TrainState → List Event × TrainState) (steps0 : Nat)
    (st : TrainState) : Nat → TrainState
  | 0 => st
  | n + 1 => (f (steps0 + n) (orbit f steps0 st n)).2

/-- The canonical trace of `len` consecutive loop iterations starting at
step `steps0` in state `st`. -/
def traceOf (f : Nat → TrainState → List Event × TrainState) (steps0 : Nat)
    (st : TrainState) : Nat → List (Nat × List Event)
  | 0 => []
  | len + 1 => (steps0, (f steps0 st).1) :: traceOf f (steps0 + 1) (f steps0 st).2 len

/-! ### Characterization of the training loop -/

/-- Shifting the starting step of an orbit by one. -/
theorem orbit_shift (f : Nat → TrainState → List Event × TrainState)
    (steps0 : Nat) (st : TrainState) (n : Nat) :
    orbit f (steps0 + 1) (f steps0 st).2 n = orbit f steps0 st (n + 1) := by
  induction n with
  | zero => rfl
  | succ n ih =>
    show (f (steps0 + 1 + n) (orbit f (steps0 + 1) (f steps0 st).2 n)).2 = _
    rw [ih]
    have harith : steps0 + 1 + n = steps0 + (n + 1) := by omega
    rw [harith]
    rfl

theorem trainLoop_none_of_lt (total : Nat)
    (f : Nat → TrainState → List Event × TrainState) :
    ∀ (fuel steps : Nat) (st : TrainState), total + 1 < steps →
      trainLoop total f steps st fuel = none := by
  intro fuel
  induction fuel with
  | zero => intro steps st _; rfl
  | succ fuel ih =>
    intro steps st h
    unfold trainLoop
    rw [if_neg (by omega)]
    simp only [ih (steps + 1) _ (by omega), Option.map_none']

/-- A successful run of the loop produces exactly the canonical trace. -/
theorem trainLoop_eq_some (total : Nat)
    (f : Nat → TrainState → List Event × TrainState) :
    ∀ (fuel steps : Nat) (st : TrainState) (tr : List (Nat × List Event)),
      trainLoop total f steps st fuel = some tr →
      tr = traceOf f steps st (total + 1 - steps) := by
  intro fuel
  induction fuel with
  | zero => intro steps st tr h; simp [trainLoop] at h
  | succ fuel ih =>
    intro steps st tr h
    unfold trainLoop at h
    by_cases hs : steps = total + 1
    · rw [if_pos hs] at h
      have : tr = [] := by simpa using h.symm
      subst this
      have : total + 1 - steps = 0 := by omega
      rw [this]
      rfl
    · rw [if_neg hs] at h
      rcases Option.map_eq_some'.mp h with ⟨tr', h1, h2⟩
      have hle : steps ≤ total := by
        by_contra hgt
        rw [trainLoop_none_of_lt total f fuel (steps + 1) _ (by omega)] at h1
        exact Option.noConfusion h1
      have h3 := ih (steps + 1) _ tr' h1
      have h4 : total + 1 - steps = (total - steps) + 1 := by omega
      have h5 : total + 1 - (steps + 1) = total - steps := by omega
      rw [h5] at h3
      rw [h4, traceOf, ← h3, ← h2]

/-- With enough fuel the loop always terminates by step count, returning the
canonical trace. -/
theorem trainLoop_terminates (total : Nat)
    (f : Nat → TrainState → List Event × TrainState) :
    ∀ (fuel steps : Nat) (st : TrainState), steps ≤ total + 1 →
      total + 1 - steps < fuel →
      trainLoop total f steps st fuel =
        some (traceOf f steps st (total + 1 - steps)) := by
  intro fuel
  induction fuel with
  | zero => intro steps st _ h; omega
  | succ fuel ih =>
    intro steps st hle hfuel
    unfold trainLoop
    by_cases hs : steps = total + 1
    · rw [if_pos hs]
      have : total + 1 - steps = 0 := by omega
      rw [this]
      rfl
    · rw [if_neg hs]
      rw [ih (steps + 1) _ (by omega) (by omega)]
      have h4 : total + 1 - steps = (total - steps) + 1 := by omega
      have h5 : total + 1 - (steps + 1) = total - steps := by omega
      rw [h4, h5, traceOf]
      rfl

/-- Membership in the canonical trace: every entry is the pair of a step
index `steps0 + i` and the events produced by the loop body at the orbit
state reached after `i` iterations. -/
theorem mem_traceOf (f : Nat → TrainState → List Event × TrainState) :
    ∀ (len steps0 : Nat) (st : TrainState) (s : Nat) (evs : List Event),
      (s, evs) ∈ traceOf f steps0 st len →
      ∃ i, i < len ∧ s = steps0 + i ∧
        evs = (f (steps0 + i) (orbit f steps0 st i)).1 := by
  intro len
  induction len with
  | zero => intro steps0 st s evs h; simp [traceOf] at h
  | succ len ih =>
    intro steps0 st s evs h
    rw [traceOf] at h
    rcases List.mem_cons.mp h with h0 | h1
    · refine ⟨0, by omega, ?_, ?_⟩
      · simpa using congrArg Prod.fst h0
      · simpa [orbit] using congrArg Prod.snd h0
    · rcases ih (steps0 + 1) _ s evs h1 with ⟨i, hi, hs, hevs⟩
      refine ⟨i + 1, by omega, by omega, ?_⟩
      rw [hevs, orbit_shift]
      have harith : steps0 + 1 + i = steps0 + (i + 1) := by omega
      rw [harith]

/-! ### Pointwise facts about one loop iteration -/

/-- Recognizes a printed report line. -/
def isReport : Event → Bool
  | .report _ => true
  | _ => false

/-- The loss that drives the backward pass of variant `v` on batch `b`: the
unweighted sum of the two sub-losses for the two-sub-loss families, the
single loss otherwise. -/
def lossOf (v : Variant) (b : Batch) : ℚ :=
  match v with
  | .bert => b.lossA + b.lossB
  | .albert => b.lossA + b.lossB
  | .bilm => b.lossA + b.lossB
  | _ => b.lossA

/-- All report-window accumulators of variant `v` are zero.  The listed
fields are exactly the running sums the corresponding `train_*` function
accumulates (and resets after each report). -/
def windowAccumulatorsZero (v : Variant) (st : TrainState) : Prop :=
  match v with
  | .bert | .albert =>
      st.total_loss = 0 ∧ st.total_loss_a = 0 ∧ st.total_loss_b = 0 ∧
      st.total_correct_a = 0 ∧ st.total_correct_b = 0 ∧
      st.total_denominator = 0 ∧ st.total_instances = 0 ∧ st.done_tokens = 0
  | .mlm | .lm | .mt =>
      st.total_loss = 0 ∧ st.total_correct_a = 0 ∧ st.total_denominator = 0
  | .bilm =>
      st.total_loss = 0 ∧ st.total_loss_a = 0 ∧ st.total_loss_b = 0 ∧
      st.total_correct_a = 0 ∧ st.total_correct_b = 0 ∧ st.total_denominator = 0
  | .cls =>
      st.total_loss = 0 ∧ st.total_correct_a = 0 ∧ st.total_instances = 0

theorem trainerStep_countP_opt (v : Variant) (args : Args) (rank : Option Nat)
    (clock : Nat → ℚ) (b : Batch) (s : Nat) (st : TrainState) :
    (trainerStep v args rank clock b s st).1.countP isOptimizerStep
      = if s % args.accumulation_steps == 0 then 1 else 0 := by
  cases v <;>
    simp [trainerStep, isOptimizerStep, List.countP_append, List.countP_cons,
      apply_ite (List.countP isOptimizerStep), apply_ite Prod.fst]

theorem trainerStep_countP_sched (v : Variant) (args : Args) (rank : Option Nat)
    (clock : Nat → ℚ) (b : Batch) (s : Nat) (st : TrainState) :
    (trainerStep v args rank clock b s st).1.countP isSchedulerStep
      = if s % args.accumulation_steps == 0 then 1 else 0 := by
  cases v <;>
    simp [trainerStep, isSchedulerStep, List.countP_append, List.countP_cons,
      apply_ite (List.countP isSchedulerStep), apply_ite Prod.fst]

theorem trainerStep_countP_zeroGrad (v : Variant) (args : Args) (rank : Option Nat)
    (clock : Nat → ℚ) (b : Batch) (s : Nat) (st : TrainState) :
    (trainerStep v args rank clock b s st).1.countP isZeroGrad
      = if s % args.accumulation_steps == 0 then 1 else 0 := by
  cases v <;>
    simp [trainerStep, isZeroGrad, List.countP_append, List.countP_cons,
      apply_ite (List.countP isZeroGrad), apply_ite Prod.fst]

theorem trainerStep_countP_report (v : Variant) (args : Args) (rank : Option Nat)
    (clock : Nat → ℚ) (b : Batch) (s : Nat) (st : TrainState) :
    (trainerStep v args rank clock b s st).1.countP isReport
      = if s % args.report_steps == 0 && ownsMetrics args rank then 1 else 0 := by
  cases v <;>
    simp [trainerStep, isReport, List.countP_append, List.countP_cons,
      apply_ite (List.countP isReport), apply_ite Prod.fst]

theorem trainerStep_savePaths (v : Variant) (args : Args) (rank : Option Nat)
    (clock : Nat → ℚ) (b : Batch) (s : Nat) (st : TrainState) :
    (trainerStep v args rank clock b s st).1.filterMap getSavePath
      = if s % args.save_checkpoint_steps == 0 && ownsMetrics args rank
        then [args.output_model_path ++ "-" ++ Nat.repr s] else [] := by
  cases v <;>
    simp [trainerStep, getSavePath, List.filterMap_append,
      apply_ite (List.filterMap getSavePath), apply_ite Prod.fst]

theorem trainerStep_backward (v : Variant) (args : Args) (rank : Option Nat)
    (clock : Nat → ℚ) (b : Batch) (s : Nat) (st : TrainState) :
    (trainerStep v args rank clock b s st).1.filterMap getBackward
      = [lossOf v b / (args.accumulation_steps : ℚ)] := by
  cases v <;>
    simp [trainerStep, getBackward, lossOf, List.filterMap_append,
      apply_ite (List.filterMap getBackward), apply_ite Prod.fst]

theorem trainerStep_reset (v : Variant) (args : Args) (rank : Option Nat)
    (clock : Nat → ℚ) (b : Batch) (s : Nat) (st : TrainState)
    (h : (s % args.report_steps == 0 && ownsMetrics args rank) = true) :
    windowAccumulatorsZero v (trainerStep v args rank clock b s st).2 := by
  cases v <;> simp [trainerStep, windowAccumulatorsZero, h]


/-- The decimal digit list of `n`, most significant digit first: the list
`Nat.toDigitsCore` builds, defined by structural recursion for reasoning. -/
def decDigits (n : Nat) : List Char :=
  if n / 10 = 0 then [Nat.digitChar (n % 10)]
  else decDigits (n / 10) ++ [Nat.digitChar (n % 10)]
termination_by n
decreasing_by
  have hn0 : n ≠ 0 := by
    intro h0
    subst h0
    simp at *
  exact Nat.div_lt_self (Nat.pos_of_ne_zero hn0) (by omega)

theorem toDigitsCore_eq_decDigits :
    ∀ (fuel n : Nat) (ds : List Char), n < fuel →
      Nat.toDigitsCore 10 fuel n ds = decDigits n ++ ds := by
  intro fuel
  induction fuel with
  | zero => intro n ds h; omega
  | succ fuel ih =>
    intro n ds h
    by_cases h10 : n / 10 = 0
    · rw [decDigits, if_pos h10]
      simp [Nat.toDigitsCore, h10]
    · rw [decDigits, if_neg h10]
      have hn0 : n ≠ 0 := by
        intro h0
        subst h0
        simp at h10
      have hlt : n / 10 < n := Nat.div_lt_self (Nat.pos_of_ne_zero hn0) (by omega)
      simp only [Nat.toDigitsCore, h10, if_neg, ite_false]
      rw [ih (n / 10) _ (by omega)]
      simp

theorem digitChar_toNat (k : Nat) (h : k < 10) : (Nat.digitChar k).toNat = 48 + k := by
  revert h
  revert k
  decide

theorem foldl_decDigits (n : Nat) :
    ∀ acc : Nat,
      (decDigits n).foldl (fun acc c => 10 * acc + (c.toNat - 48)) acc
        = acc * 10 ^ (decDigits n).length + n := by
  induction n using Nat.strong_induction_on with
  | _ n ih =>
    intro acc
    by_cases h10 : n / 10 = 0
    · rw [decDigits, if_pos h10]
      have hlt : n < 10 := (Nat.div_eq_zero_iff (by omega)).mp h10
      have hc : (Nat.digitChar (n % 10)).toNat = 48 + n % 10 :=
        digitChar_toNat (n % 10) (Nat.mod_lt _ (by omega))
      simp [List.foldl, hc]
      have hmod : n % 10 = n := Nat.mod_eq_of_lt hlt
      omega
    · rw [decDigits, if_neg h10]
      have hn0 : n ≠ 0 := by
        intro h0
        subst h0
        simp at h10
      have hlt : n / 10 < n := Nat.div_lt_self (Nat.pos_of_ne_zero hn0) (by omega)
      rw [List.foldl_append]
      rw [ih (n / 10) hlt acc]
      have hc : (Nat.digitChar (n % 10)).toNat = 48 + n % 10 :=
        digitChar_toNat (n % 10) (Nat.mod_lt _ (by omega))
      simp only [List.foldl, hc, List.length_append, List.length_singleton]
      have hdm := Nat.div_add_mod n 10
      calc 10 * (acc * 10 ^ (decDigits (n / 10)).length + n / 10) + (48 + n % 10 - 48)
          = acc * (10 ^ (decDigits (n / 10)).length * 10) + (10 * (n / 10) + n % 10) := by
            ring_nf
            omega
        _ = acc * 10 ^ ((decDigits (n / 10)).length + 1) + n := by
            rw [pow_succ, hdm]

theorem decDigits_injective : Function.Injective decDigits := by
  intro m n h
  have hm := foldl_decDigits m 0
  have hn := foldl_decDigits n 0
  rw [h] at hm
  rw [hn] at hm
  simpa using hm.symm

theorem toDigits_eq_decDigits (n : Nat) : Nat.toDigits 10 n = decDigits n := by
  rw [Nat.toDigits, toDigitsCore_eq_decDigits (n + 1) n [] (by omega), List.append_nil]

theorem repr_injective : Function.Injective Nat.repr := by
  intro m n h
  apply decDigits_injective
  rw [← toDigits_eq_decDigits, ← toDigits_eq_decDigits]
  have h2 := congrArg String.data h
  simpa [Nat.repr, List.asString] using h2

theorem checkpointPath_injective (out : String) :
    Function.Injective (fun s : Nat => out ++ "-" ++ Nat.repr s) := by
  intro a b h
  apply repr_injective
  have h2 := congrArg String.data h
  simp only [String.data_append, List.append_assoc, List.append_cancel_left_eq] at h2
  exact String.ext h2

/-! ### Trace-level consequences of the pointwise facts -/

theorem traceOf_length (f : Nat → TrainState → List Event × TrainState) :
    ∀ (len steps0 : Nat) (st : TrainState), (traceOf f steps0 st len).length = len := by
  intro len
  induction len with
  | zero => intro steps0 st; rfl
  | succ len ih => intro steps0 st; simp [traceOf, ih]

theorem traceOf_map_fst (f : Nat → TrainState → List Event × TrainState) :
    ∀ (len steps0 : Nat) (st : TrainState),
      (traceOf f steps0 st len).map Prod.fst = List.range' steps0 len := by
  intro len
  induction len with
  | zero => intro steps0 st; rfl
  | succ len ih =>
    intro steps0 st
    rw [List.range'_succ]
    simp [traceOf, ih]

theorem traceCount_traceOf (p : Event → Bool)
    (f : Nat → TrainState → List Event × TrainState) (c : Nat → Bool)
    (hstep : ∀ s st, (f s st).1.countP p = if c s then 1 else 0) :
    ∀ (len steps0 : Nat) (st : TrainState),
      traceCount p (traceOf f steps0 st len) = (List.range' steps0 len).countP c := by
  intro len
  induction len with
  | zero => intro steps0 st; rfl
  | succ len ih =>
    intro steps0 st
    rw [List.range'_succ]
    simp only [traceOf, traceCount, List.map_cons, List.sum_cons, List.countP_cons, hstep]
    rw [← traceCount, ih]
    by_cases hc : c steps0 <;> simp [hc] <;> omega

theorem savedPaths_traceOf (f : Nat → TrainState → List Event × TrainState)
    (c : Nat → Bool) (g : Nat → String)
    (hstep : ∀ s st, (f s st).1.filterMap getSavePath = if c s then [g s] else []) :
    ∀ (len steps0 : Nat) (st : TrainState),
      savedPaths (traceOf f steps0 st len) = ((List.range' steps0 len).filter c).map g := by
  intro len
  induction len with
  | zero => intro steps0 st; rfl
  | succ len ih =>
    intro steps0 st
    rw [List.range'_succ]
    simp only [traceOf, savedPaths, List.flatMap_cons, hstep]
    rw [show (traceOf f (steps0 + 1) (f steps0 st).2 len).flatMap
          (fun p => p.2.filterMap getSavePath)
        = savedPaths (traceOf f (steps0 + 1) (f steps0 st).2 len) from rfl]
    rw [ih]
    by_cases hc : c steps0 <;> simp [List.filter_cons, hc]

theorem countP_mod_range' (a : Nat) :
    ∀ T : Nat, (List.range' 1 T).countP (fun s => s % a == 0) = T / a := by
  intro T
  induction T with
  | zero => simp [Nat.zero_div]
  | succ T ih =>
    rw [List.range'_1_concat, List.countP_append, ih, Nat.succ_div]
    simp only [List.countP_cons, List.countP_nil]
    have hiff : ((1 + T) % a == 0) = true ↔ a ∣ (T + 1) := by
      rw [beq_iff_eq, Nat.add_comm 1 T, Nat.dvd_iff_mod_eq_zero]
    by_cases hd : a ∣ (T + 1)
    · rw [if_pos hd]
      have heq : ((1 + T) % a == 0) = true := hiff.mpr hd
      rw [heq]
      simp
    · rw [if_neg hd]
      have heq : ¬ (((1 + T) % a == 0) = true) := fun h => hd (hiff.mp h)
      simp [heq]

theorem trainLoop_congr (total : Nat)
    (f g : Nat → TrainState → List Event × TrainState) :
    ∀ (fuel steps : Nat) (st : TrainState),
      (∀ s st', steps ≤ s → s ≤ total → f s st' = g s st') →
      trainLoop total f steps st fuel = trainLoop total g steps st fuel := by
  intro fuel
  induction fuel with
  | zero => intro steps st _; rfl
  | succ fuel ih =>
    intro steps st h
    unfold trainLoop
    by_cases hs : steps = total + 1
    · rw [if_pos hs, if_pos hs]
    · rw [if_neg hs, if_neg hs]
      by_cases hle : steps ≤ total
      · rw [h steps st (le_refl _) hle]
        rw [ih (steps + 1) (g steps st).2 (fun s st' h1 h2 => h s st' (by omega) h2)]
      · rw [trainLoop_none_of_lt total f fuel (steps + 1) _ (by omega),
            trainLoop_none_of_lt total g fuel (steps + 1) _ (by omega)]
        rfl

/-! ### Conversions between the source's mod-tests and divisibility -/

theorem beq_mod_eq_decide_dvd (a s : Nat) : (s % a == 0) = decide (a ∣ s) := by
  by_cases h : a ∣ s
  · simp [h, Nat.mod_eq_zero_of_dvd h]
  · have hm : ¬ (s % a = 0) := fun hb => h (Nat.dvd_iff_mod_eq_zero.mpr hb)
    simp [h, hm]

theorem ite_mod_eq_dvd {α : Sort _} (a s : Nat) (x y : α) :
    (if s % a == 0 then x else y) = if a ∣ s then x else y := by
  rw [beq_mod_eq_decide_dvd]
  by_cases h : a ∣ s <;> simp [h]

/-- C1: in every training-loop variant, `optimizer.step()`, `scheduler.step()`
and `model.zero_grad()` are each performed exactly once at every step whose
index is divisible by `accumulation_steps`, and at no other step. -/
theorem c1_update_cadence (v : Variant) (args : Args) (rank : Option Nat)
    (clock : Nat → ℚ) (batches : Nat → Batch) (fuel : Nat)
    (tr : List (Nat × List Event))
    (htr : train v args rank clock batches fuel = some tr)
    (htot : 1 ≤ args.total_steps) (hacc : 1 ≤ args.accumulation_steps)
    (s : Nat) (evs : List Event) (hmem : (s, evs) ∈ tr) :
    (evs.countP isOptimizerStep = if args.accumulation_steps ∣ s then 1 else 0) ∧
    (evs.countP isSchedulerStep = if args.accumulation_steps ∣ s then 1 else 0) ∧
    (evs.countP isZeroGrad = if args.accumulation_steps ∣ s then 1 else 0) := by
  have h1 := trainLoop_eq_some args.total_steps _ fuel 1 (initState clock) tr htr
  subst h1
  rcases mem_traceOf _ _ _ _ _ _ hmem with ⟨i, _, hs, hevs⟩
  subst hs
  rw [hevs]
  refine ⟨?_, ?_, ?_⟩
  · simp only [trainerStep_countP_opt]
    exact ite_mod_eq_dvd _ _ _ _
  · simp only [trainerStep_countP_sched]
    exact ite_mod_eq_dvd _ _ _ _
  · simp only [trainerStep_countP_zeroGrad]
    exact ite_mod_eq_dvd _ _ _ _

/-- C2: checkpoints are written exactly at the steps of `[1, total_steps]`
divisible by `save_checkpoint_steps`, only by the metrics-owning worker, at
the path `output_model_path ++ "-" ++ step`; the paths of one run are
pairwise distinct. -/
theorem c2_checkpoint_schedule (v : Variant) (args : Args) (rank : Option Nat)
    (clock : Nat → ℚ) (batches : Nat → Batch) (fuel : Nat)
    (tr : List (Nat × List Event))
    (htr : train v args rank clock batches fuel = some tr) :
    savedPaths tr
      = ((List.range' 1 args.total_steps).filter
          (fun s => decide (args.save_checkpoint_steps ∣ s) && ownsMetrics args rank)).map
          (fun s => args.output_model_path ++ "-" ++ Nat.repr s) ∧
    (savedPaths tr).Nodup ∧
    (ownsMetrics args rank = false → savedPaths tr = []) := by
  have h1 := trainLoop_eq_some args.total_steps _ fuel 1 (initState clock) tr htr
  subst h1
  have hchar := savedPaths_traceOf _
      (fun s => s % args.save_checkpoint_steps == 0 && ownsMetrics args rank)
      (fun s => args.output_model_path ++ "-" ++ Nat.repr s)
      (fun s st => trainerStep_savePaths v args rank clock (batches s) s st)
      (args.total_steps + 1 - 1) 1 (initState clock)
  rw [Nat.add_sub_cancel] at hchar
  have hfeq : ∀ s : Nat,
      (s % args.save_checkpoint_steps == 0 && ownsMetrics args rank)
        = (decide (args.save_checkpoint_steps ∣ s) && ownsMetrics args rank) := by
    intro s
    rw [beq_mod_eq_decide_dvd]
  have hchar2 : savedPaths (traceOf
        (fun s st => trainerStep v args rank clock (batches s) s st) 1
        (initState clock) (args.total_steps + 1 - 1))
      = ((List.range' 1 args.total_steps).filter
          (fun s => decide (args.save_checkpoint_steps ∣ s) && ownsMetrics args rank)).map
          (fun s => args.output_model_path ++ "-" ++ Nat.repr s) := by
    rw [Nat.add_sub_cancel, hchar]
    congr 1
    apply List.filter_congr
    intro s _
    exact hfeq s
  refine ⟨hchar2, ?_, ?_⟩
  · rw [hchar2]
    exact ((List.nodup_range' 1 args.total_steps).filter _).map
      (checkpointPath_injective args.output_model_path)
  · intro hown
    rw [hchar2]
    simp [hown]

/-- C4: in every variant the loss passed to `backward` at every step is the
variant's total loss divided by `accumulation_steps`, and for the
two-sub-loss variants (bert, albert, bilm) that total loss is the unweighted
sum of the two sub-losses. -/
theorem c4_backward_scaled_sum (v : Variant) (args : Args) (rank : Option Nat)
    (clock : Nat → ℚ) (batches : Nat → Batch) (fuel : Nat)
    (tr : List (Nat × List Event))
    (htr : train v args rank clock batches fuel = some tr)
    (s : Nat) (evs : List Event) (hmem : (s, evs) ∈ tr) :
    evs.filterMap getBackward
      = [lossOf v (batches s) / (args.accumulation_steps : ℚ)] ∧
    ((v = .bert ∨ v = .albert ∨ v = .bilm) →
      lossOf v (batches s) = (batches s).lossA + (batches s).lossB) := by
  have h1 := trainLoop_eq_some args.total_steps _ fuel 1 (initState clock) tr htr
  subst h1
  rcases mem_traceOf _ _ _ _ _ _ hmem with ⟨i, _, hs, hevs⟩
  subst hs
  rw [hevs]
  constructor
  · simp only [trainerStep_backward]
  · rintro (rfl | rfl | rfl) <;> rfl

/-- C5: with a loader that yields a batch on each of the first `total_steps`
draws, every variant's loop runs exactly `total_steps` iterations, the step
counter takes every value of `[1, total_steps]`, and the run is unchanged by
any modification of the loader beyond step `total_steps`. -/
theorem c5_termination (v : Variant) (args : Args) (rank : Option Nat)
    (clock : Nat → ℚ) (batches : Nat → Batch) (fuel : Nat)
    (hfuel : args.total_steps + 1 ≤ fuel) :
    (∃ tr, train v args rank clock batches fuel = some tr ∧
        tr.length = args.total_steps ∧
        tr.map Prod.fst = List.range' 1 args.total_steps) ∧
    (∀ batches' : Nat → Batch,
        (∀ s, 1 ≤ s → s ≤ args.total_steps → batches' s = batches s) →
        train v args rank clock batches' fuel = train v args rank clock batches fuel) := by
  constructor
  · refine ⟨traceOf (fun s st => trainerStep v args rank clock (batches s) s st) 1
        (initState clock) args.total_steps, ?_, traceOf_length _ _ _ _,
        traceOf_map_fst _ _ _ _⟩
    have h := trainLoop_terminates args.total_steps
        (fun s st => trainerStep v args rank clock (batches s) s st) fuel 1
        (initState clock) (by omega) (by omega)
    rw [Nat.add_sub_cancel] at h
    exact h
  · intro batches' hagree
    unfold train
    apply trainLoop_congr
    intro s st' h1 h2
    rw [hagree s h1 h2]

/-- C8: a report line is printed exactly at the steps divisible by
`report_steps` and only when the worker owns the metrics; a worker with a
non-zero rank in distributed mode never prints; and immediately after every
emitted report all window accumulators of the variant are zero. -/
theorem c8_report_gating (v : Variant) (args : Args) (rank : Option Nat)
    (clock : Nat → ℚ) (batches : Nat → Batch) (fuel : Nat)
    (tr : List (Nat × List Event))
    (htr : train v args rank clock batches fuel = some tr)
    (s : Nat) (evs : List Event) (hmem : (s, evs) ∈ tr) :
    (evs.countP isReport
      = if args.report_steps ∣ s ∧ ownsMetrics args rank = true then 1 else 0) ∧
    (∀ k, args.dist_train = true → rank = some k → k ≠ 0 →
      evs.countP isReport = 0) ∧
    (args.report_steps ∣ s → ownsMetrics args rank = true →
      windowAccumulatorsZero v
        (orbit (fun n st => trainerStep v args rank clock (batches n) n st) 1
          (initState clock) s)) := by
  have h1 := trainLoop_eq_some args.total_steps _ fuel 1 (initState clock) tr htr
  subst h1
  rcases mem_traceOf _ _ _ _ _ _ hmem with ⟨i, _, hs, hevs⟩
  have hcount : evs.countP isReport
      = if args.report_steps ∣ s ∧ ownsMetrics args rank = true then 1 else 0 := by
    rw [hevs]
    simp only [trainerStep_countP_report]
    rw [← hs, beq_mod_eq_decide_dvd]
    simp only [Bool.and_eq_true, decide_eq_true_eq]
  refine ⟨hcount, ?_, ?_⟩
  · intro k hdist hrank hk
    rw [hcount]
    have how : ownsMetrics args rank = false := by
      simp [ownsMetrics, hdist, hrank, hk]
    rw [if_neg]
    intro hcontra
    rw [how] at hcontra
    exact Bool.false_ne_true hcontra.2
  · intro hdvd hown
    have hcond : (s % args.report_steps == 0 && ownsMetrics args rank) = true := by
      rw [beq_mod_eq_decide_dvd]
      simp [hdvd, hown]
    have hstep := trainerStep_reset v args rank clock (batches s) s
      (orbit (fun n st => trainerStep v args rank clock (batches n) n st) 1
        (initState clock) i) hcond
    have hidx : s = i + 1 := by omega
    rw [hidx]
    rw [show orbit (fun n st => trainerStep v args rank clock (batches n) n st) 1
          (initState clock) (i + 1)
        = (trainerStep v args rank clock (batches (1 + i)) (1 + i)
            (orbit (fun n st => trainerStep v args rank clock (batches n) n st) 1
              (initState clock) i)).2 from rfl]
    rw [show (1 : Nat) + i = s by omega] at *
    exact hstep

/-- C10: the warmup-linear schedule is constructed with horizon
`total_steps`, yet over a full run `scheduler.step()` fires exactly
`total_steps / accumulation_steps` times (integer division); with
`accumulation_steps > 1` this is strictly fewer than the horizon. -/
theorem c10_scheduler_undershoot (v : Variant) (args : Args) (rank : Option Nat)
    (clock : Nat → ℚ) (batches : Nat → Batch) (fuel : Nat)
    (tr : List (Nat × List Event))
    (htr : train v args rank clock batches fuel = some tr) :
    schedulerTTotal args = args.total_steps ∧
    traceCount isSchedulerStep tr = args.total_steps / args.accumulation_steps ∧
    (2 ≤ args.accumulation_steps → 1 ≤ args.total_steps →
      args.total_steps / args.accumulation_steps < schedulerTTotal args) := by
  refine ⟨rfl, ?_, ?_⟩
  · have h1 := trainLoop_eq_some args.total_steps _ fuel 1 (initState clock) tr htr
    subst h1
    rw [traceCount_traceOf isSchedulerStep _
        (fun s => s % args.accumulation_steps == 0)
        (fun s st => trainerStep_countP_sched v args rank clock (batches s) s st)
        (args.total_steps + 1 - 1) 1 (initState clock)]
    rw [Nat.add_sub_cancel]
    exact countP_mod_range' _ _
  · intro h2 h1
    exact Nat.div_lt_self (by omega) (by omega)

/-! ### Report-window sums and state invariants along a run -/

/-- Sum of `g` over the `len` steps `lo, lo + 1, …, lo + len - 1`. -/
def windowSum {M : Type} [AddCommMonoid M] (g : Nat → M) (lo len : Nat) : M :=
  ((List.range len).map (fun i => g (lo + i))).sum

theorem windowSum_zero {M : Type} [AddCommMonoid M] (g : Nat → M) (lo : Nat) :
    windowSum g lo 0 = 0 := rfl

theorem windowSum_succ {M : Type} [AddCommMonoid M] (g : Nat → M) (lo len : Nat) :
    windowSum g lo (len + 1) = windowSum g lo len + g (lo + len) := by
  rw [windowSum, List.range_succ, List.map_append, List.sum_append]
  simp [windowSum]

/-- Any accumulator that adds `g s` at step `s` and is cleared at
owner-report boundaries holds, after `n` steps, the sum of `g` over the
current (open) report window. -/
theorem orbit_window_acc {M : Type} [AddCommMonoid M]
    (f : Nat → TrainState → List Event × TrainState) (r : Nat) (hr : 1 ≤ r)
    (F : TrainState → M) (g : Nat → M) (st0 : TrainState) (hzero : F st0 = 0)
    (hstep : ∀ s st, F ((f s st).2) = if s % r == 0 then 0 else F st + g s) :
    ∀ n, F (orbit f 1 st0 n)
      = windowSum g (r * (n / r) + 1) (n - r * (n / r)) := by
  intro n
  induction n with
  | zero => simpa [windowSum] using hzero
  | succ n ih =>
    show F ((f (1 + n) (orbit f 1 st0 n)).2) = _
    rw [hstep]
    by_cases hd : r ∣ (n + 1)
    · have hcond : ((1 + n) % r == 0) = true := by
        rw [beq_mod_eq_decide_dvd]
        simp [Nat.add_comm 1 n, hd]
      rw [if_pos hcond]
      have hmul : r * ((n + 1) / r) = n + 1 := Nat.mul_div_cancel' hd
      rw [hmul]
      simp [windowSum]
    · have hcond : ¬ (((1 + n) % r == 0) = true) := by
        rw [beq_mod_eq_decide_dvd]
        simp [Nat.add_comm 1 n, hd]
      rw [if_neg hcond]
      have hdiv : (n + 1) / r = n / r := Nat.succ_div_of_not_dvd hd
      rw [hdiv, ih]
      have hle : r * (n / r) ≤ n := by
        rw [Nat.mul_comm]
        exact Nat.div_mul_le_self n r
      have hlen : (n + 1) - r * (n / r) = (n - r * (n / r)) + 1 := by omega
      rw [hlen, windowSum_succ]
      have harg : r * (n / r) + 1 + (n - r * (n / r)) = 1 + n := by omega
      rw [harg]

/-- The timing variables after `n` steps when the worker owns the metrics:
`time.time()` has been consumed once at loop start and twice per emitted
report, and `start_time` holds the most recent sample. -/
theorem orbit_time (f : Nat → TrainState → List Event × TrainState)
    (r : Nat) (hr : 1 ≤ r) (clock : Nat → ℚ) (st0 : TrainState)
    (h0t : st0.timeIdx = 1) (h0s : st0.start_time = clock 0)
    (hstep : ∀ s st, ((f s st).2.timeIdx = if s % r == 0 then st.timeIdx + 2 else st.timeIdx)
        ∧ ((f s st).2.start_time = if s % r == 0 then clock (st.timeIdx + 1) else st.start_time)) :
    ∀ n, (orbit f 1 st0 n).timeIdx = 2 * (n / r) + 1 ∧
         (orbit f 1 st0 n).start_time = clock (2 * (n / r)) := by
  intro n
  induction n with
  | zero => simp [orbit, h0t, h0s]
  | succ n ih =>
    have hstepn := hstep (1 + n) (orbit f 1 st0 n)
    by_cases hd : r ∣ (n + 1)
    · have hcond : ((1 + n) % r == 0) = true := by
        rw [beq_mod_eq_decide_dvd]
        simp [Nat.add_comm 1 n, hd]
      have hdiv : (n + 1) / r = n / r + 1 := Nat.succ_div_of_dvd hd
      constructor
      · show (f (1 + n) (orbit f 1 st0 n)).2.timeIdx = _
        rw [hstepn.1, if_pos hcond, ih.1, hdiv]
        ring
      · show (f (1 + n) (orbit f 1 st0 n)).2.start_time = _
        rw [hstepn.2, if_pos hcond, ih.1, hdiv]
        have h2 : 2 * (n / r) + 1 + 1 = 2 * (n / r + 1) := by omega
        rw [h2]
    · have hcond : ¬ (((1 + n) % r == 0) = true) := by
        rw [beq_mod_eq_decide_dvd]
        simp [Nat.add_comm 1 n, hd]
      have hdiv : (n + 1) / r = n / r := Nat.succ_div_of_not_dvd hd
      constructor
      · show (f (1 + n) (orbit f 1 st0 n)).2.timeIdx = _
        rw [hstepn.1, if_neg hcond, ih.1, hdiv]
      · show (f (1 + n) (orbit f 1 st0 n)).2.start_time = _
        rw [hstepn.2, if_neg hcond, ih.2, hdiv]

theorem trainerStep_timeIdx (v : Variant) (args : Args) (rank : Option Nat)
    (clock : Nat → ℚ) (b : Batch) (s : Nat) (st : TrainState)
    (hown : ownsMetrics args rank = true) :
    (trainerStep v args rank clock b s st).2.timeIdx
      = if s % args.report_steps == 0 then st.timeIdx + 2 else st.timeIdx := by
  cases v <;>
    simp [trainerStep, hown, apply_ite Prod.snd, apply_ite TrainState.timeIdx]

theorem trainerStep_start_time (v : Variant) (args : Args) (rank : Option Nat)
    (clock : Nat → ℚ) (b : Batch) (s : Nat) (st : TrainState)
    (hown : ownsMetrics args rank = true) :
    (trainerStep v args rank clock b s st).2.start_time
      = if s % args.report_steps == 0 then clock (st.timeIdx + 1) else st.start_time := by
  cases v <;>
    simp [trainerStep, hown, apply_ite Prod.snd, apply_ite TrainState.start_time]

theorem trainerStep_report_cls (args : Args) (rank : Option Nat)
    (clock : Nat → ℚ) (b : Batch) (s : Nat) (st : TrainState) :
    (trainerStep .cls args rank clock b s st).1.filterMap getReport
      = if s % args.report_steps == 0 && ownsMetrics args rank then
          [{ steps := s
             total_steps := args.total_steps
             tokensPerSec := ((if args.dist_train then
                 args.batch_size * b.size1 * args.report_steps * args.world_size
               else args.batch_size * b.size1 * args.report_steps : Nat) : ℚ)
               / (clock st.timeIdx - st.start_time)
             loss := (st.total_loss + b.lossA) / (args.report_steps : ℚ)
             subLosses := []
             accs := [(st.total_correct_a + b.correctA)
                 / (st.total_instances + (b.size0 : ℚ))] }]
        else [] := by
  simp [trainerStep, getReport, List.filterMap_append,
    apply_ite (List.filterMap getReport), apply_ite Prod.fst]

theorem trainerStep_report_bert (args : Args) (rank : Option Nat)
    (clock : Nat → ℚ) (b : Batch) (s : Nat) (st : TrainState) :
    (trainerStep .bert args rank clock b s st).1.filterMap getReport
      = if s % args.report_steps == 0 && ownsMetrics args rank then
          [{ steps := s
             total_steps := args.total_steps
             tokensPerSec := ((if args.dist_train then
                 (st.done_tokens + b.size0 * b.size1) * args.world_size
               else st.done_tokens + b.size0 * b.size1 : Nat) : ℚ)
               / (clock st.timeIdx - st.start_time)
             loss := (st.total_loss + (b.lossA + b.lossB)) / (args.report_steps : ℚ)
             subLosses := [(st.total_loss_a + b.lossA) / (args.report_steps : ℚ),
                          (st.total_loss_b + b.lossB) / (args.report_steps : ℚ)]
             accs := [(st.total_correct_a + b.correctA)
                 / (st.total_denominator + b.denominator),
               (st.total_correct_b + b.correctB)
                 / (st.total_instances + (b.size0 : ℚ))] }]
        else [] := by
  simp [trainerStep, getReport, List.filterMap_append,
    apply_ite (List.filterMap getReport), apply_ite Prod.fst]

theorem trainerStep_report_albert (args : Args) (rank : Option Nat)
    (clock : Nat → ℚ) (b : Batch) (s : Nat) (st : TrainState) :
    (trainerStep .albert args rank clock b s st).1.filterMap getReport
      = if s % args.report_steps == 0 && ownsMetrics args rank then
          [{ steps := s
             total_steps := args.total_steps
             tokensPerSec := ((if args.dist_train then
                 (st.done_tokens + b.size0 * b.size1) * args.world_size
               else st.done_tokens + b.size0 * b.size1 : Nat) : ℚ)
               / (clock st.timeIdx - st.start_time)
             loss := (st.total_loss + (b.lossA + b.lossB)) / (args.report_steps : ℚ)
             subLosses := [(st.total_loss_a + b.lossA) / (args.report_steps : ℚ),
                          (st.total_loss_b + b.lossB) / (args.report_steps : ℚ)]
             accs := [(st.total_correct_a + b.correctA)
                 / (st.total_denominator + b.denominator),
               (st.total_correct_b + b.correctB)
                 / (st.total_instances + (b.size0 : ℚ))] }]
        else [] := by
  simp [trainerStep, getReport, List.filterMap_append,
    apply_ite (List.filterMap getReport), apply_ite Prod.fst]

theorem trainerStep_report_mlm (args : Args) (rank : Option Nat)
    (clock : Nat → ℚ) (b : Batch) (s : Nat) (st : TrainState) :
    (trainerStep .mlm args rank clock b s st).1.filterMap getReport
      = if s % args.report_steps == 0 && ownsMetrics args rank then
          [{ steps := s
             total_steps := args.total_steps
             tokensPerSec := ((if args.dist_train then
                 args.batch_size * b.size1 * args.report_steps * args.world_size
               else args.batch_size * b.size1 * args.report_steps : Nat) : ℚ)
               / (clock st.timeIdx - st.start_time)
             loss := (st.total_loss + b.lossA) / (args.report_steps : ℚ)
             subLosses := []
             accs := [(st.total_correct_a + b.correctA)
                 / (st.total_denominator + b.denominator)] }]
        else [] := by
  simp [trainerStep, getReport, List.filterMap_append,
    apply_ite (List.filterMap getReport), apply_ite Prod.fst]

theorem trainerStep_report_lm (args : Args) (rank : Option Nat)
    (clock : Nat → ℚ) (b : Batch) (s : Nat) (st : TrainState) :
    (trainerStep .lm args rank clock b s st).1.filterMap getReport
      = if s % args.report_steps == 0 && ownsMetrics args rank then
          [{ steps := s
             total_steps := args.total_steps
             tokensPerSec := ((if args.dist_train then
                 args.batch_size * b.size1 * args.report_steps * args.world_size
               else args.batch_size * b.size1 * args.report_steps : Nat) : ℚ)
               / (clock st.timeIdx - st.start_time)
             loss := (st.total_loss + b.lossA) / (args.report_steps : ℚ)
             subLosses := []
             accs := [(st.total_correct_a + b.correctA)
                 / (st.total_denominator + b.denominator)] }]
        else [] := by
  simp [trainerStep, getReport, List.filterMap_append,
    apply_ite (List.filterMap getReport), apply_ite Prod.fst]

theorem trainerStep_report_mt (args : Args) (rank : Option Nat)
    (clock : Nat → ℚ) (b : Batch) (s : Nat) (st : TrainState) :
    (trainerStep .mt args rank clock b s st).1.filterMap getReport
      = if s % args.report_steps == 0 && ownsMetrics args rank then
          [{ steps := s
             total_steps := args.total_steps
             tokensPerSec := ((if args.dist_train then
                 args.batch_size * b.size1 * args.report_steps * args.world_size
               else args.batch_size * b.size1 * args.report_steps : Nat) : ℚ)
               / (clock st.timeIdx - st.start_time)
             loss := (st.total_loss + b.lossA) / (args.report_steps : ℚ)
             subLosses := []
             accs := [(st.total_correct_a + b.correctA)
                 / (st.total_denominator + b.denominator)] }]
        else [] := by
  simp [trainerStep, getReport, List.filterMap_append,
    apply_ite (List.filterMap getReport), apply_ite Prod.fst]

theorem trainerStep_report_bilm (args : Args) (rank : Option Nat)
    (clock : Nat → ℚ) (b : Batch) (s : Nat) (st : TrainState) :
    (trainerStep .bilm args rank clock b s st).1.filterMap getReport
      = if s % args.report_steps == 0 && ownsMetrics args rank then
          [{ steps := s
             total_steps := args.total_steps
             tokensPerSec := ((if args.dist_train then
                 args.batch_size * b.size1 * args.report_steps * args.world_size
               else args.batch_size * b.size1 * args.report_steps : Nat) : ℚ)
               / (clock st.timeIdx - st.start_time)
             loss := (st.total_loss + (b.lossA + b.lossB)) / (args.report_steps : ℚ)
             subLosses := [b.lossA, b.lossB]
             accs := [(st.total_correct_a + b.correctA)
                 / (st.total_denominator + b.denominator),
               (st.total_correct_b + b.correctB)
                 / (st.total_denominator + b.denominator)] }]
        else [] := by
  simp [trainerStep, getReport, List.filterMap_append,
    apply_ite (List.filterMap getReport), apply_ite Prod.fst]

theorem trainerStep_done_tokens_bert (args : Args) (rank : Option Nat)
    (clock : Nat → ℚ) (b : Batch) (s : Nat) (st : TrainState)
    (hown : ownsMetrics args rank = true) :
    (trainerStep .bert args rank clock b s st).2.done_tokens
      = if s % args.report_steps == 0 then 0
        else st.done_tokens + b.size0 * b.size1 := by
  simp [trainerStep, hown, apply_ite Prod.snd, apply_ite TrainState.done_tokens]

theorem trainerStep_done_tokens_albert (args : Args) (rank : Option Nat)
    (clock : Nat → ℚ) (b : Batch) (s : Nat) (st : TrainState)
    (hown : ownsMetrics args rank = true) :
    (trainerStep .albert args rank clock b s st).2.done_tokens
      = if s % args.report_steps == 0 then 0
        else st.done_tokens + b.size0 * b.size1 := by
  simp [trainerStep, hown, apply_ite Prod.snd, apply_ite TrainState.done_tokens]

theorem trainerStep_correct_cls (args : Args) (rank : Option Nat)
    (clock : Nat → ℚ) (b : Batch) (s : Nat) (st : TrainState)
    (hown : ownsMetrics args rank = true) :
    (trainerStep .cls args rank clock b s st).2.total_correct_a
      = if s % args.report_steps == 0 then 0
        else st.total_correct_a + b.correctA := by
  simp [trainerStep, hown, apply_ite Prod.snd, apply_ite TrainState.total_correct_a]

theorem trainerStep_instances_cls (args : Args) (rank : Option Nat)
    (clock : Nat → ℚ) (b : Batch) (s : Nat) (st : TrainState)
    (hown : ownsMetrics args rank = true) :
    (trainerStep .cls args rank clock b s st).2.total_instances
      = if s % args.report_steps == 0 then 0
        else st.total_instances + (b.size0 : ℚ) := by
  simp [trainerStep, hown, apply_ite Prod.snd, apply_ite TrainState.total_instances]

end UER

namespace UER

/-- C7: in the classification loop the reported accuracy is the window's
accumulated correct count divided by the window's accumulated instance count
(the sum of the batches' leading dimensions over the window's steps). -/
theorem c7_cls_accuracy (args : Args) (rank : Option Nat) (clock : Nat → ℚ)
    (batches : Nat → Batch) (fuel : Nat) (tr : List (Nat × List Event))
    (htr : train .cls args rank clock batches fuel = some tr)
    (hr : 1 ≤ args.report_steps) (hown : ownsMetrics args rank = true)
    (s : Nat) (evs : List Event) (hmem : (s, evs) ∈ tr)
    (rep : Report) (hrep : rep ∈ evs.filterMap getReport) :
    args.report_steps ∣ s ∧
    rep.accs = [windowSum (fun k => (batches k).correctA)
          (s - args.report_steps + 1) args.report_steps
        / windowSum (fun k => ((batches k).size0 : ℚ))
          (s - args.report_steps + 1) args.report_steps] := by
  have h1 := trainLoop_eq_some args.total_steps _ fuel 1 (initState clock) tr htr
  subst h1
  rcases mem_traceOf _ _ _ _ _ _ hmem with ⟨i, _, hs, hevs⟩
  rw [hevs, ← hs] at hrep
  simp only [trainerStep_report_cls] at hrep
  by_cases hc : (s % args.report_steps == 0 && ownsMetrics args rank) = true
  · rw [if_pos hc] at hrep
    have hdvd : args.report_steps ∣ s := by
      have h := (Bool.and_eq_true _ _).mp hc
      exact Nat.dvd_iff_mod_eq_zero.mpr (beq_iff_eq.mp h.1)
    have hspos : 1 ≤ s := by omega
    have hsr : args.report_steps ≤ s := Nat.le_of_dvd (by omega) hdvd
    refine ⟨hdvd, ?_⟩
    have hrepeq := List.mem_singleton.mp hrep
    -- window-sum invariants for the two cls accumulators
    have hC := orbit_window_acc
        (fun n st => trainerStep .cls args rank clock (batches n) n st)
        args.report_steps hr
        TrainState.total_correct_a (fun k => (batches k).correctA)
        (initState clock) rfl
        (fun n st => trainerStep_correct_cls args rank clock (batches n) n st hown) i
    have hI := orbit_window_acc
        (fun n st => trainerStep .cls args rank clock (batches n) n st)
        args.report_steps hr
        TrainState.total_instances (fun k => ((batches k).size0 : ℚ))
        (initState clock) rfl
        (fun n st => trainerStep_instances_cls args rank clock (batches n) n st hown) i
    have hi : i = s - 1 := by omega
    rw [hi] at hC hI
    -- the last reset before step s happened at step s - report_steps
    have hsd : s / args.report_steps = (s - 1) / args.report_steps + 1 := by
      have h2 : (s - 1 + 1) / args.report_steps = (s - 1) / args.report_steps + 1 := by
        apply Nat.succ_div_of_dvd
        rw [show s - 1 + 1 = s by omega]
        exact hdvd
      rw [show s - 1 + 1 = s by omega] at h2
      exact h2
    have hms : args.report_steps * (s / args.report_steps) = s :=
      Nat.mul_div_cancel' hdvd
    rw [hsd, Nat.mul_succ] at hms
    have hmul : args.report_steps * ((s - 1) / args.report_steps)
        = s - args.report_steps := Nat.eq_sub_of_add_eq hms
    rw [hmul] at hC hI
    rw [show (s - 1) - (s - args.report_steps) = args.report_steps - 1 by omega]
      at hC hI
    have hr' : args.report_steps - 1 + 1 = args.report_steps := by omega
    have hwinC : windowSum (fun k => (batches k).correctA)
          (s - args.report_steps + 1) (args.report_steps - 1) + (batches s).correctA
        = windowSum (fun k => (batches k).correctA)
          (s - args.report_steps + 1) args.report_steps := by
      have h2 := windowSum_succ (fun k => (batches k).correctA)
        (s - args.report_steps + 1) (args.report_steps - 1)
      rw [hr'] at h2
      rw [show s - args.report_steps + 1 + (args.report_steps - 1) = s by omega] at h2
      exact h2.symm
    have hwinI : windowSum (fun k => ((batches k).size0 : ℚ))
          (s - args.report_steps + 1) (args.report_steps - 1) + ((batches s).size0 : ℚ)
        = windowSum (fun k => ((batches k).size0 : ℚ))
          (s - args.report_steps + 1) args.report_steps := by
      have h2 := windowSum_succ (fun k => ((batches k).size0 : ℚ))
        (s - args.report_steps + 1) (args.report_steps - 1)
      rw [hr'] at h2
      rw [show s - args.report_steps + 1 + (args.report_steps - 1) = s by omega] at h2
      exact h2.symm
    have hacc : rep.accs
        = [((orbit (fun n st => trainerStep .cls args rank clock (batches n) n st) 1
              (initState clock) (s - 1)).total_correct_a + (batches s).correctA)
           / ((orbit (fun n st => trainerStep .cls args rank clock (batches n) n st) 1
              (initState clock) (s - 1)).total_instances + ((batches s).size0 : ℚ))] := by
      rw [hrepeq, hi]
    rw [hacc, hC, hI, hwinC, hwinI]
  · rw [if_neg hc] at hrep
    simp at hrep

end UER

namespace UER

/-- Division facts about a report step `s` (a positive multiple of `r`). -/
theorem window_start_arith (r s : Nat) (hr : 1 ≤ r) (hdvd : r ∣ s) (hs : 1 ≤ s) :
    s / r = (s - 1) / r + 1 ∧ r * ((s - 1) / r) = s - r := by
  have hsd : s / r = (s - 1) / r + 1 := by
    have h2 : (s - 1 + 1) / r = (s - 1) / r + 1 := by
      apply Nat.succ_div_of_dvd
      rw [show s - 1 + 1 = s by omega]
      exact hdvd
    rw [show s - 1 + 1 = s by omega] at h2
    exact h2
  refine ⟨hsd, ?_⟩
  have hms : r * (s / r) = s := Nat.mul_div_cancel' hdvd
  rw [hsd, Nat.mul_succ] at hms
  exact Nat.eq_sub_of_add_eq hms

/-- The elapsed time computed at the report of step `s` is the difference of
the two clock samples surrounding the window (sample `2*(s/r) - 2` taken when
the window opened, sample `2*(s/r) - 1` taken at this report). -/
theorem report_elapsed_eq (v : Variant) (args : Args) (rank : Option Nat)
    (clock : Nat → ℚ) (batches : Nat → Batch)
    (hown : ownsMetrics args rank = true) (hr : 1 ≤ args.report_steps)
    (s : Nat) (hdvd : args.report_steps ∣ s) (hspos : 1 ≤ s) :
    clock (orbit (fun k st => trainerStep v args rank clock (batches k) k st) 1
        (initState clock) (s - 1)).timeIdx
      - (orbit (fun k st => trainerStep v args rank clock (batches k) k st) 1
        (initState clock) (s - 1)).start_time
    = clock (2 * (s / args.report_steps) - 1)
      - clock (2 * (s / args.report_steps) - 2) := by
  have htime := orbit_time
      (fun k st => trainerStep v args rank clock (batches k) k st)
      args.report_steps hr clock (initState clock) rfl rfl
      (fun k st => ⟨trainerStep_timeIdx v args rank clock (batches k) k st hown,
        trainerStep_start_time v args rank clock (batches k) k st hown⟩) (s - 1)
  rw [htime.1, htime.2]
  rcases window_start_arith args.report_steps s hr hdvd hspos with ⟨hsd, _⟩
  rw [hsd]
  have e1 : 2 * ((s - 1) / args.report_steps) + 1
      = 2 * ((s - 1) / args.report_steps + 1) - 1 := by
    generalize (s - 1) / args.report_steps = x
    omega
  have e2 : 2 * ((s - 1) / args.report_steps)
      = 2 * ((s - 1) / args.report_steps + 1) - 2 := by
    generalize (s - 1) / args.report_steps = x
    omega
  rw [← e1, ← e2]

/-- For a variant whose `done_tokens` accumulates the actual batch token
counts, the count read at the report of step `s` is the window's token sum. -/
theorem orbit_done_window (v : Variant) (args : Args) (rank : Option Nat)
    (clock : Nat → ℚ) (batches : Nat → Batch)
    (hr : 1 ≤ args.report_steps)
    (hstep : ∀ k st, (trainerStep v args rank clock (batches k) k st).2.done_tokens
      = if k % args.report_steps == 0 then 0
        else st.done_tokens + (batches k).size0 * (batches k).size1)
    (s : Nat) (hdvd : args.report_steps ∣ s) (hspos : 1 ≤ s) :
    (orbit (fun k st => trainerStep v args rank clock (batches k) k st) 1
        (initState clock) (s - 1)).done_tokens
      + (batches s).size0 * (batches s).size1
    = windowSum (fun k => (batches k).size0 * (batches k).size1)
        (s - args.report_steps + 1) args.report_steps := by
  have hD := orbit_window_acc
      (fun k st => trainerStep v args rank clock (batches k) k st)
      args.report_steps hr TrainState.done_tokens
      (fun k => (batches k).size0 * (batches k).size1)
      (initState clock) rfl hstep (s - 1)
  rcases window_start_arith args.report_steps s hr hdvd hspos with ⟨hsd, hmul⟩
  rw [hmul] at hD
  have hsr : args.report_steps ≤ s := Nat.le_of_dvd (by omega) hdvd
  rw [show (s - 1) - (s - args.report_steps) = args.report_steps - 1 by omega] at hD
  rw [hD]
  have hr' : args.report_steps - 1 + 1 = args.report_steps := by omega
  have h2 := windowSum_succ (fun k => (batches k).size0 * (batches k).size1)
    (s - args.report_steps + 1) (args.report_steps - 1)
  rw [hr'] at h2
  rw [show s - args.report_steps + 1 + (args.report_steps - 1) = s by omega] at h2
  exact h2.symm

/-- The token count whose quotient by the window's elapsed time the report
of step `s` prints: `train_bert`/`train_albert` print the accumulated actual
window token count (scaled by world size when distributed); the other five
loops print the estimate `batch_size * src.size(1) * report_steps` computed
from the configured batch size and the current (last) batch's sequence
length (scaled by world size when distributed). -/
def reportedTokens (v : Variant) (args : Args) (batches : Nat → Batch)
    (s : Nat) : Nat :=
  match v with
  | .bert | .albert =>
    if args.dist_train then
      windowSum (fun k => (batches k).size0 * (batches k).size1)
        (s - args.report_steps + 1) args.report_steps * args.world_size
    else
      windowSum (fun k => (batches k).size0 * (batches k).size1)
        (s - args.report_steps + 1) args.report_steps
  | _ =>
    if args.dist_train then
      args.batch_size * (batches s).size1 * args.report_steps * args.world_size
    else
      args.batch_size * (batches s).size1 * args.report_steps

/-- Following the spec's words (tokens actually processed by the worker in
the report window ending at step `s`): the sum of
`src.size(0) * src.size(1)` over the window's `report_steps` batches.  Kept
separate from `reportedTokens`, which is read off the source, so the two can
be compared. -/
def specWindowTokens (args : Args) (batches : Nat → Batch) (s : Nat) : Nat :=
  windowSum (fun k => (batches k).size0 * (batches k).size1)
    (s - args.report_steps + 1) args.report_steps

/-- C3 (amended): every report's throughput is `reportedTokens` divided by
the window's elapsed wall time; for `bert`/`albert` this is the actual
window token count (world-size-scaled when distributed), while the other
variants print the `batch_size * src.size(1) * report_steps` estimate. -/
theorem c3_throughput_formula (v : Variant) (args : Args) (rank : Option Nat)
    (clock : Nat → ℚ) (batches : Nat → Batch) (fuel : Nat)
    (tr : List (Nat × List Event))
    (htr : train v args rank clock batches fuel = some tr)
    (hr : 1 ≤ args.report_steps) (hown : ownsMetrics args rank = true)
    (s : Nat) (evs : List Event) (hmem : (s, evs) ∈ tr)
    (rep : Report) (hrep : rep ∈ evs.filterMap getReport) :
    args.report_steps ∣ s ∧
    rep.tokensPerSec = (reportedTokens v args batches s : ℚ)
      / (clock (2 * (s / args.report_steps) - 1)
         - clock (2 * (s / args.report_steps) - 2)) ∧
    ((v = .bert ∨ v = .albert) → reportedTokens v args batches s
        = if args.dist_train then specWindowTokens args batches s * args.world_size
          else specWindowTokens args batches s) := by
  have h1 := trainLoop_eq_some args.total_steps _ fuel 1 (initState clock) tr htr
  subst h1
  rcases mem_traceOf _ _ _ _ _ _ hmem with ⟨i, _, hs, hevs⟩
  rw [hevs, ← hs] at hrep
  have hspos : 1 ≤ s := by omega
  have hi : i = s - 1 := by omega
  subst hi
  cases v
  case bert =>
    simp only [trainerStep_report_bert] at hrep
    by_cases hc : (s % args.report_steps == 0 && ownsMetrics args rank) = true
    · rw [if_pos hc] at hrep
      have hdvd : args.report_steps ∣ s := by
        have h := (Bool.and_eq_true _ _).mp hc
        exact Nat.dvd_iff_mod_eq_zero.mpr (beq_iff_eq.mp h.1)
      have hrepeq := List.mem_singleton.mp hrep
      refine ⟨hdvd, ?_, fun _ => by simp [reportedTokens, specWindowTokens]⟩
      have htok : rep.tokensPerSec
          = ((if args.dist_train then
                ((orbit (fun k st => trainerStep .bert args rank clock (batches k) k st) 1
                    (initState clock) (s - 1)).done_tokens
                  + (batches s).size0 * (batches s).size1) * args.world_size
              else (orbit (fun k st => trainerStep .bert args rank clock (batches k) k st) 1
                    (initState clock) (s - 1)).done_tokens
                  + (batches s).size0 * (batches s).size1 : Nat) : ℚ)
            / (clock (orbit (fun k st => trainerStep .bert args rank clock (batches k) k st) 1
                (initState clock) (s - 1)).timeIdx
               - (orbit (fun k st => trainerStep .bert args rank clock (batches k) k st) 1
                (initState clock) (s - 1)).start_time) := by
        rw [hrepeq]
      rw [htok, report_elapsed_eq .bert args rank clock batches hown hr s hdvd hspos,
        orbit_done_window .bert args rank clock batches hr
          (fun k st => trainerStep_done_tokens_bert args rank clock (batches k) k st hown)
          s hdvd hspos]
      simp only [reportedTokens]
    · rw [if_neg hc] at hrep
      simp at hrep
  case lm =>
    simp only [trainerStep_report_lm] at hrep
    by_cases hc : (s % args.report_steps == 0 && ownsMetrics args rank) = true
    · rw [if_pos hc] at hrep
      have hdvd : args.report_steps ∣ s := by
        have h := (Bool.and_eq_true _ _).mp hc
        exact Nat.dvd_iff_mod_eq_zero.mpr (beq_iff_eq.mp h.1)
      have hrepeq := List.mem_singleton.mp hrep
      refine ⟨hdvd, ?_, fun h => by rcases h with h | h <;> exact absurd h (by decide)⟩
      have htok : rep.tokensPerSec
          = ((if args.dist_train then
                args.batch_size * (batches s).size1 * args.report_steps * args.world_size
              else args.batch_size * (batches s).size1 * args.report_steps : Nat) : ℚ)
            / (clock (orbit (fun k st => trainerStep .lm args rank clock (batches k) k st) 1
                (initState clock) (s - 1)).timeIdx
               - (orbit (fun k st => trainerStep .lm args rank clock (batches k) k st) 1
                (initState clock) (s - 1)).start_time) := by
        rw [hrepeq]
      rw [htok, report_elapsed_eq .lm args rank clock batches hown hr s hdvd hspos]
      simp only [reportedTokens]
    · rw [if_neg hc] at hrep
      simp at hrep
  case mlm =>
    simp only [trainerStep_report_mlm] at hrep
    by_cases hc : (s % args.report_steps == 0 && ownsMetrics args rank) = true
    · rw [if_pos hc] at hrep
      have hdvd : args.report_steps ∣ s := by
        have h := (Bool.and_eq_true _ _).mp hc
        exact Nat.dvd_iff_mod_eq_zero.mpr (beq_iff_eq.mp h.1)
      have hrepeq := List.mem_singleton.mp hrep
      refine ⟨hdvd, ?_, fun h => by rcases h with h | h <;> exact absurd h (by decide)⟩
      have htok : rep.tokensPerSec
          = ((if args.dist_train then
                args.batch_size * (batches s).size1 * args.report_steps * args.world_size
              else args.batch_size * (batches s).size1 * args.report_steps : Nat) : ℚ)
            / (clock (orbit (fun k st => trainerStep .mlm args rank clock (batches k) k st) 1
                (initState clock) (s - 1)).timeIdx
               - (orbit (fun k st => trainerStep .mlm args rank clock (batches k) k st) 1
                (initState clock) (s - 1)).start_time) := by
        rw [hrepeq]
      rw [htok, report_elapsed_eq .mlm args rank clock batches hown hr s hdvd hspos]
      simp only [reportedTokens]
    · rw [if_neg hc] at hrep
      simp at hrep
  case bilm =>
    simp only [trainerStep_report_bilm] at hrep
    by_cases hc : (s % args.report_steps == 0 && ownsMetrics args rank) = true
    · rw [if_pos hc] at hrep
      have hdvd : args.report_steps ∣ s := by
        have h := (Bool.and_eq_true _ _).mp hc
        exact Nat.dvd_iff_mod_eq_zero.mpr (beq_iff_eq.mp h.1)
      have hrepeq := List.mem_singleton.mp hrep
      refine ⟨hdvd, ?_, fun h => by rcases h with h | h <;> exact absurd h (by decide)⟩
      have htok : rep.tokensPerSec
          = ((if args.dist_train then
                args.batch_size * (batches s).size1 * args.report_steps * args.world_size
              else args.batch_size * (batches s).size1 * args.report_steps : Nat) : ℚ)
            / (clock (orbit (fun k st => trainerStep .bilm args rank clock (batches k) k st) 1
                (initState clock) (s - 1)).timeIdx
               - (orbit (fun k st => trainerStep .bilm args rank clock (batches k) k st) 1
                (initState clock) (s - 1)).start_time) := by
        rw [hrepeq]
      rw [htok, report_elapsed_eq .bilm args rank clock batches hown hr s hdvd hspos]
      simp only [reportedTokens]
    · rw [if_neg hc] at hrep
      simp at hrep
  case albert =>
    simp only [trainerStep_report_albert] at hrep
    by_cases hc : (s % args.report_steps == 0 && ownsMetrics args rank) = true
    · rw [if_pos hc] at hrep
      have hdvd : args.report_steps ∣ s := by
        have h := (Bool.and_eq_true _ _).mp hc
        exact Nat.dvd_iff_mod_eq_zero.mpr (beq_iff_eq.mp h.1)
      have hrepeq := List.mem_singleton.mp hrep
      refine ⟨hdvd, ?_, fun _ => by simp [reportedTokens, specWindowTokens]⟩
      have htok : rep.tokensPerSec
          = ((if args.dist_train then
                ((orbit (fun k st => trainerStep .albert args rank clock (batches k) k st) 1
                    (initState clock) (s - 1)).done_tokens
                  + (batches s).size0 * (batches s).size1) * args.world_size
              else (orbit (fun k st => trainerStep .albert args rank clock (batches k) k st) 1
                    (initState clock) (s - 1)).done_tokens
                  + (batches s).size0 * (batches s).size1 : Nat) : ℚ)
            / (clock (orbit (fun k st => trainerStep .albert args rank clock (batches k) k st) 1
                (initState clock) (s - 1)).timeIdx
               - (orbit (fun k st => trainerStep .albert args rank clock (batches k) k st) 1
                (initState clock) (s - 1)).start_time) := by
        rw [hrepeq]
      rw [htok, report_elapsed_eq .albert args rank clock batches hown hr s hdvd hspos,
        orbit_done_window .albert args rank clock batches hr
          (fun k st => trainerStep_done_tokens_albert args rank clock (batches k) k st hown)
          s hdvd hspos]
      simp only [reportedTokens]
    · rw [if_neg hc] at hrep
      simp at hrep
  case mt =>
    simp only [trainerStep_report_mt] at hrep
    by_cases hc : (s % args.report_steps == 0 && ownsMetrics args rank) = true
    · rw [if_pos hc] at hrep
      have hdvd : args.report_steps ∣ s := by
        have h := (Bool.and_eq_true _ _).mp hc
        exact Nat.dvd_iff_mod_eq_zero.mpr (beq_iff_eq.mp h.1)
      have hrepeq := List.mem_singleton.mp hrep
      refine ⟨hdvd, ?_, fun h => by rcases h with h | h <;> exact absurd h (by decide)⟩
      have htok : rep.tokensPerSec
          = ((if args.dist_train then
                args.batch_size * (batches s).size1 * args.report_steps * args.world_size
              else args.batch_size * (batches s).size1 * args.report_steps : Nat) : ℚ)
            / (clock (orbit (fun k st => trainerStep .mt args rank clock (batches k) k st) 1
                (initState clock) (s - 1)).timeIdx
               - (orbit (fun k st => trainerStep .mt args rank clock (batches k) k st) 1
                (initState clock) (s - 1)).start_time) := by
        rw [hrepeq]
      rw [htok, report_elapsed_eq .mt args rank clock batches hown hr s hdvd hspos]
      simp only [reportedTokens]
    · rw [if_neg hc] at hrep
      simp at hrep
  case cls =>
    simp only [trainerStep_report_cls] at hrep
    by_cases hc : (s % args.report_steps == 0 && ownsMetrics args rank) = true
    · rw [if_pos hc] at hrep
      have hdvd : args.report_steps ∣ s := by
        have h := (Bool.and_eq_true _ _).mp hc
        exact Nat.dvd_iff_mod_eq_zero.mpr (beq_iff_eq.mp h.1)
      have hrepeq := List.mem_singleton.mp hrep
      refine ⟨hdvd, ?_, fun h => by rcases h with h | h <;> exact absurd h (by decide)⟩
      have htok : rep.tokensPerSec
          = ((if args.dist_train then
                args.batch_size * (batches s).size1 * args.report_steps * args.world_size
              else args.batch_size * (batches s).size1 * args.report_steps : Nat) : ℚ)
            / (clock (orbit (fun k st => trainerStep .cls args rank clock (batches k) k st) 1
                (initState clock) (s - 1)).timeIdx
               - (orbit (fun k st => trainerStep .cls args rank clock (batches k) k st) 1
                (initState clock) (s - 1)).start_time) := by
        rw [hrepeq]
      rw [htok, report_elapsed_eq .cls args rank clock batches hown hr s hdvd hspos]
      simp only [reportedTokens]
    · rw [if_neg hc] at hrep
      simp at hrep

end UER

namespace UER

/-- C9: when mixed precision is requested and apex cannot be imported, the
worker raises `ImportError` before dispatching to any trainer: the result
carries no trace, so no batch is drawn, no forward/backward runs and no
optimizer step executes; there is no retry path. -/
theorem c9_fp16_import_error (procId : Option Nat) (gpuRanks : List Nat)
    (args : Args) (clock : Nat → ℚ) (batches : Nat → Batch) (fuel : Nat)
    (hfp : args.fp16 = true) :
    worker procId gpuRanks args false clock batches fuel
      = .error ("ImportError: " ++ apexImportError) := by
  unfold worker
  rw [hfp]
  simp

/-- C6 (amended): the trainer loops never touch the configuration (they
return only events and loop-local state); the launcher changes it in exactly
one case — when fp16 is requested it stores the amp handle in `args.amp`
before dispatching — and passes it through unchanged otherwise. -/
theorem c6_config_mutation (procId : Option Nat) (gpuRanks : List Nat)
    (args : Args) (apexAvailable : Bool) (clock : Nat → ℚ)
    (batches : Nat → Batch) (fuel : Nat) (a : Args)
    (otr : Option (List (Nat × List Event)))
    (hok : worker procId gpuRanks args apexAvailable clock batches fuel
      = .ok (a, otr)) :
    (args.fp16 = false → a = args) ∧
    (args.fp16 = true → a = { args with amp := some () }) := by
  unfold worker at hok
  constructor
  · intro hfp
    rw [hfp] at hok
    simp at hok
    rcases hsome : str2trainer args.target with _ | v <;> rw [hsome] at hok
    · exact absurd hok (by simp)
    · simp at hok
      exact hok.1.symm
  · intro hfp
    rw [hfp] at hok
    by_cases hav : apexAvailable
    · rw [hav] at hok
      simp at hok
      rcases hsome : str2trainer args.target with _ | v <;> rw [hsome] at hok
      · exact absurd hok (by simp)
      · simp at hok
        rw [hfp]
        exact hok.1.symm
    · rw [Bool.not_eq_true] at hav
      rw [hav] at hok
      simp at hok

/-! ### Concrete scenarios from the specification -/

/-- A unit-interval clock: the k-th sample is k seconds. -/
def natClock : Nat → ℚ := fun n => n

/-- A batch of 2 sequences of 8 tokens with unit losses. -/
def demoBatch : Batch :=
  { size0 := 2
    size1 := 8
    lossA := 1
    lossB := 1
    correctA := 1
    correctB := 1
    denominator := 2 }

/-- The spec's plain masked-LM scenario: total_steps=4, accumulation_steps=2,
report_steps=4, save_checkpoint_steps=4, batch_size=2, non-distributed. -/
def demoArgs : Args :=
  { total_steps := 4
    accumulation_steps := 2
    report_steps := 4
    save_checkpoint_steps := 4
    batch_size := 2
    world_size := 1
    dist_train := false
    single_gpu := false
    fp16 := false
    target := "mlm"
    output_model_path := "model.bin" }

def demoTrace : List (Nat × List Event) :=
  (train .mlm demoArgs none natClock (fun _ => demoBatch) 5).getD []

def demoRep4 : Report :=
  { steps := 4
    total_steps := 4
    tokensPerSec := 64
    loss := 1
    subLosses := []
    accs := [1 / 2] }

def demoEvs4 : List Event :=
  [Event.backward (1 / 2), Event.optimizerStep, Event.schedulerStep,
   Event.zeroGrad, Event.report demoRep4, Event.saveModel "model.bin-4"]

/-- The spec's checkpoint-naming scenario: total_steps=10,
save_checkpoint_steps=5. -/
def c2Args : Args :=
  { demoArgs with
    total_steps := 10
    accumulation_steps := 1
    report_steps := 10
    save_checkpoint_steps := 5 }

def c2Trace : List (Nat × List Event) :=
  (train .mlm c2Args none natClock (fun _ => demoBatch) 11).getD []

/-- A two-step mlm run whose two batches have different sequence lengths
(8 and 4), exposing that the printed throughput is an estimate. -/
def c3Args : Args :=
  { demoArgs with
    total_steps := 2
    accumulation_steps := 1
    report_steps := 2
    save_checkpoint_steps := 2 }

def c3Batches : Nat → Batch := fun s =>
  { demoBatch with size1 := if s = 1 then 8 else 4 }

def c3Trace : List (Nat × List Event) :=
  (train .mlm c3Args none natClock c3Batches 3).getD []

/-- A bert run with sub-losses 1 and 2, exercising the summed backward. -/
def c4Args : Args :=
  { demoArgs with
    total_steps := 2
    report_steps := 2
    save_checkpoint_steps := 2
    target := "bert" }

def c4Batches : Nat → Batch := fun _ => { demoBatch with lossA := 1, lossB := 2 }

def c4Trace : List (Nat × List Event) :=
  (train .bert c4Args none natClock c4Batches 3).getD []

/-- The spec's classification scenario: 3 micro-steps of batch size 2 with
1, 2 and 2 correct predictions. -/
def c7Args : Args :=
  { demoArgs with
    total_steps := 3
    accumulation_steps := 1
    report_steps := 3
    save_checkpoint_steps := 3
    target := "cls" }

def c7Batches : Nat → Batch := fun s =>
  { demoBatch with correctA := if s = 1 then 1 else 2 }

def c7Trace : List (Nat × List Event) :=
  (train .cls c7Args none natClock c7Batches 4).getD []

def c7Rep : Report :=
  { steps := 3
    total_steps := 3
    tokensPerSec := 48
    loss := 1
    subLosses := []
    accs := [5 / 6] }

def c7Evs3 : List Event :=
  [Event.backward 1, Event.optimizerStep, Event.schedulerStep, Event.zeroGrad,
   Event.report c7Rep, Event.saveModel "model.bin-3"]

/-- The demo configuration with mixed precision requested. -/
def fp16Args : Args :=
  { demoArgs with fp16 := true }

def fp16RunArgs : Args :=
  { fp16Args with amp := some () }

def fp16RunTrace : Option (List (Nat × List Event)) :=
  train .mlm fp16RunArgs none natClock (fun _ => demoBatch) 5

def fp16Run : Except String (Args × Option (List (Nat × List Event))) :=
  worker none [] fp16Args true natClock (fun _ => demoBatch) 5

/-! ### Witnesses and counterexamples -/

theorem c1_update_cadence_witness :
    demoEvs4.countP isOptimizerStep = 1 ∧ ((4, demoEvs4) ∈ demoTrace) := by
  refine ⟨?_, by with_unfolding_all decide⟩
  have h := c1_update_cadence .mlm demoArgs none natClock (fun _ => demoBatch) 5
    demoTrace (by with_unfolding_all decide) (by with_unfolding_all decide) (by with_unfolding_all decide) 4 demoEvs4 (by with_unfolding_all decide)
  exact h.1.trans (by with_unfolding_all decide)

theorem c2_checkpoint_schedule_witness :
    savedPaths c2Trace = ["model.bin-5", "model.bin-10"] ∧
    (savedPaths c2Trace).Nodup := by
  have h := c2_checkpoint_schedule .mlm c2Args none natClock (fun _ => demoBatch)
    11 c2Trace (by with_unfolding_all decide)
  refine ⟨?_, h.2.1⟩
  rw [h.1]
  with_unfolding_all decide

/-- C3 counterexample: with report_steps=2 and batches of sequence lengths 8
then 4, the worker processes 24 tokens in the window and one second elapses,
yet the printed throughput is 16 tokens/s — not tokens-processed divided by
elapsed time. -/
theorem c3_counterexample :
    (c3Trace.flatMap (fun p => p.2.filterMap getReport)).map Report.tokensPerSec
      = [16] ∧
    (specWindowTokens c3Args c3Batches 2 : ℚ)
      / (natClock (2 * (2 / c3Args.report_steps) - 1)
         - natClock (2 * (2 / c3Args.report_steps) - 2)) = 24 ∧
    (16 : ℚ) ≠ 24 := by
  refine ⟨by with_unfolding_all decide, by with_unfolding_all decide, by with_unfolding_all decide⟩

theorem c3_throughput_formula_witness :
    demoRep4.tokensPerSec = 64 := by
  have h := c3_throughput_formula .mlm demoArgs none natClock (fun _ => demoBatch)
    5 demoTrace (by with_unfolding_all decide) (by with_unfolding_all decide) (by with_unfolding_all decide) 4 demoEvs4 (by with_unfolding_all decide)
    demoRep4 (by with_unfolding_all decide)
  exact h.2.1.trans (by with_unfolding_all decide)

theorem c4_backward_scaled_sum_witness :
    ([Event.backward (3 / 2)] : List Event).filterMap getBackward = [3 / 2] := by
  have h := c4_backward_scaled_sum .bert c4Args none natClock c4Batches 3 c4Trace
    (by with_unfolding_all decide) 1 [Event.backward (3 / 2)] (by with_unfolding_all decide)
  rw [h.1]
  with_unfolding_all decide

theorem c5_termination_witness :
    demoTrace.map Prod.fst = [1, 2, 3, 4] := by
  obtain ⟨⟨tr, htr, _, hfst⟩, _⟩ :=
    c5_termination .mlm demoArgs none natClock (fun _ => demoBatch) 5 (by with_unfolding_all decide)
  have hdt : demoTrace = tr := by
    unfold demoTrace
    rw [htr]
    rfl
  rw [hdt, hfst]
  decide

/-- C6 counterexample: a non-distributed fp16 run with apex available
reaches the trainer with a configuration that differs from the one passed
into the worker (the amp handle has been stashed on it). -/
theorem c6_counterexample :
    fp16Run.map Prod.fst = Except.ok fp16RunArgs ∧ fp16RunArgs ≠ fp16Args := by
  exact ⟨rfl, by with_unfolding_all decide⟩

theorem c6_config_mutation_witness :
    fp16Run = Except.ok (fp16RunArgs, fp16RunTrace) ∧
    fp16RunArgs = { fp16Args with amp := some () } := by
  refine ⟨rfl, ?_⟩
  exact (c6_config_mutation none [] fp16Args true natClock (fun _ => demoBatch) 5
    fp16RunArgs fp16RunTrace rfl).2 rfl

theorem c7_cls_accuracy_witness :
    c7Rep.accs = [(5 : ℚ) / 6] := by
  have h := c7_cls_accuracy c7Args none natClock c7Batches 4 c7Trace (by with_unfolding_all decide)
    (by with_unfolding_all decide) (by with_unfolding_all decide) 3 c7Evs3 (by with_unfolding_all decide) c7Rep (by with_unfolding_all decide)
  rw [h.2]
  with_unfolding_all decide

theorem c8_report_gating_witness :
    demoEvs4.countP isReport = 1 := by
  have h := c8_report_gating .mlm demoArgs none natClock (fun _ => demoBatch) 5
    demoTrace (by with_unfolding_all decide) 4 demoEvs4 (by with_unfolding_all decide)
  rw [h.1, if_pos ⟨by with_unfolding_all decide, by with_unfolding_all decide⟩]

theorem c9_fp16_import_error_witness :
    worker none [] fp16Args false natClock (fun _ => demoBatch) 5
      = .error ("ImportError: " ++ apexImportError) :=
  c9_fp16_import_error none [] fp16Args natClock (fun _ => demoBatch) 5 rfl

theorem c10_scheduler_undershoot_witness :
    traceCount isSchedulerStep demoTrace = 2 ∧
    demoArgs.total_steps / demoArgs.accumulation_steps < schedulerTTotal demoArgs := by
  have h := c10_scheduler_undershoot .mlm demoArgs none natClock
    (fun _ => demoBatch) 5 demoTrace (by with_unfolding_all decide)
  exact ⟨h.2.1.trans (by with_unfolding_all decide), h.2.2 (by with_unfolding_all decide) (by with_unfolding_all decide)⟩

end UER
